import Mathlib

/-!
Verification of the miche-os repository's two backend services against its
natural-language specification.  The definitions below are shallow embeddings
of the TypeScript source files; each is annotated with the file it comes from.
-/

namespace MicheOS

set_option maxRecDepth 4096

/-! ## JavaScript truthiness helpers

The source uses `x || d` and `!!x` on strings and numbers; the empty string,
`0`, `null` and `undefined` are falsy. -/

/-- JS truthiness for a nullable string (`null`/`undefined`/`""` are falsy). -/
def jsTruthyS : Option String → Bool
  | some s => s ≠ ""
  | none => false

/-- `s || d` for a nullable string with a string default. -/
def jsStrOr (o : Option String) (d : String) : String :=
  match o with
  | some s => if s = "" then d else s
  | none => d

/-- `s || null` for a nullable string: keeps a truthy string, else `null`. -/
def jsStrOrNull (o : Option String) : Option String :=
  match o with
  | some s => if s = "" then none else some s
  | none => none

/-- JS truthiness for a nullable number (`0`, `null`, `undefined` are falsy). -/
def jsTruthyQ : Option ℚ → Bool
  | some q => q ≠ 0
  | none => false

/-- `a || b` on nullable numbers (`0` is falsy). -/
def jsNumOr (a : Option ℚ) (b : Option ℚ) : Option ℚ :=
  if jsTruthyQ a then a else b

/-- `a || b || null` on nullable numbers: the final `|| null` turns a falsy
result into `null`. -/
def jsNumOrNull (a b : Option ℚ) : Option ℚ :=
  if jsTruthyQ a then a else if jsTruthyQ b then b else none

/-- `x || d` for a nullable number with a concrete default. -/
def jsNumOrD (a : Option ℚ) (d : ℚ) : ℚ :=
  match a with
  | some q => if q = 0 then d else q
  | none => d

/-- A minimal HTTP response: status code plus a typed body. -/
structure HttpResp (β : Type) where
  status : Nat
  body : β
deriving Repr, DecidableEq

namespace Invop

/-! ## Data model of the invop-platform service (Supabase tables)

Rows carry exactly the columns the embedded routes write.  Timestamps are
epoch milliseconds (`Int`), numeric JSON values are rationals. -/

structure VariantRow where
  id : String
  title : String
  price : ℚ
  inventory_quantity : Int
  cost : Option ℚ
deriving Repr, DecidableEq

structure ProductRow where
  store_id : String
  shopify_id : String
  title : String
  vendor : Option String
  product_type : Option String
  status : String
  variants : List VariantRow
  tags : List String
  cost_per_item : Option ℚ
  price : Option ℚ
  inventory_quantity : Int
deriving Repr, DecidableEq

structure LineItem where
  product_id : String
  variant_id : String
  title : String
  quantity : Int
  price : ℚ
deriving Repr, DecidableEq

structure OrderRow where
  store_id : String
  shopify_id : String
  order_number : Int
  total_price : ℚ
  line_items : List LineItem
  order_date : String
deriving Repr, DecidableEq

structure InventoryRow where
  store_id : String
  variant_id : String
  quantity : Int
  location_id : String
deriving Repr, DecidableEq

structure StoreRow where
  id : String
  shop_domain : String
  user_id : String
  access_token : String
  sync_status : String
  last_sync : Option Int
  products_count : Nat
  orders_count : Nat
deriving Repr, DecidableEq

structure UserRow where
  id : String
  email : String
  plan : String
deriving Repr, DecidableEq

structure Db where
  stores : List StoreRow
  users : List UserRow
  products : List ProductRow
  orders : List OrderRow
  inventory : List InventoryRow
deriving Repr, DecidableEq

/-- Supabase `upsert` with an `onConflict` key: replace every row matching the
key of the new row, or append the row when no match exists. -/
def upsertBy {α κ : Type} [DecidableEq κ] (key : α → κ) (row : α) (l : List α) : List α :=
  if l.any (fun r => key r = key row) then
    l.map (fun r => if key r = key row then row else r)
  else l ++ [row]

/-! ## C1: POST /api/webhooks/shopify
(app/api/webhooks/shopify/route.ts) -/

structure WebhookReq where
  body : String
  shopDomain : Option String
  topic : Option String
  hmac : Option String
deriving Repr, DecidableEq

inductive WebhookRespBody
  /-- `{error: 'Invalid HMAC'}` -/
  | invalidHmac
  /-- `{error: 'Missing headers'}` -/
  | missingHeaders
  /-- `{ok: true}` -/
  | ok
deriving Repr, DecidableEq

/-- Node's `crypto.timingSafeEqual` on `Buffer.from`-encoded strings: compares
equal-length byte buffers, and THROWS (`.error`) when the byte lengths differ. -/
def timingSafeEqual (a b : String) : Except Unit Bool :=
  if a.utf8ByteSize = b.utf8ByteSize then .ok (a = b) else .error ()

/-- `verifyWebhook` (route.ts lines 76-83).  `digest secret body` stands for
`crypto.createHmac('sha256', secret).update(body, 'utf8').digest('base64')`;
the route reads the secret from `SHOPIFY_API_SECRET` (absent/empty is falsy). -/
def verifyWebhook (digest : String → String → String) (secret : Option String)
    (body : String) (hmac : Option String) : Except Unit Bool :=
  match hmac, secret with
  | some h, some s =>
      if h = "" ∨ s = "" then .ok false else timingSafeEqual (digest s body) h
  | _, _ => .ok false

/-- The body-processing continuation of the webhook route (JSON.parse, store
lookup and the per-topic dispatch, lines 22-65): it receives the raw body,
shop domain and topic and either completes with a new database state or throws
after partial writes (`.error` carries the state at the throw). -/
def WebhookProcess : Type :=
  String → String → String → Db → Except Db Db

/-- `POST` of app/api/webhooks/shopify/route.ts.  The whole handler body runs
inside `try { ... } catch { return 200 {ok:true} }`; HMAC verification comes
first, then the header presence check, then the dispatch. -/
def webhookPOST (digest : String → String → String) (secret : Option String)
    (process : WebhookProcess) (req : WebhookReq) (db : Db) :
    HttpResp WebhookRespBody × Db :=
  match verifyWebhook digest secret req.body req.hmac with
  | .error _ => (⟨200, .ok⟩, db)
  | .ok false => (⟨401, .invalidHmac⟩, db)
  | .ok true =>
    if jsTruthyS req.shopDomain ∧ jsTruthyS req.topic then
      match process req.body ((req.shopDomain).getD "") ((req.topic).getD "") db with
      | .ok db2 => (⟨200, .ok⟩, db2)
      | .error db2 => (⟨200, .ok⟩, db2)
    else (⟨400, .missingHeaders⟩, db)

namespace Sync

/-! ## C2: POST /api/shopify/sync
(app/api/shopify/sync/route.ts; lib/shopify.ts payload shapes)

The Shopify adapter's fetch results are passed in as data (`FetchData`), with
the string-encoded numeric fields already parsed to rationals. -/

structure ShopifyVariant where
  id : Int
  title : String
  price : ℚ
  compare_at_price : Option ℚ
  sku : Option String
  inventory_quantity : Int
  cost : Option ℚ
deriving Repr, DecidableEq

structure ShopifyProduct where
  id : Int
  title : String
  vendor : Option String
  product_type : Option String
  status : String
  variants : List ShopifyVariant
  tags : Option String
  created_at : String
deriving Repr, DecidableEq

structure ShopifyLineItem where
  product_id : Int
  variant_id : Int
  title : String
  quantity : Int
  price : ℚ
  total_discount : ℚ
  sku : Option String
deriving Repr, DecidableEq

structure ShopifyOrder where
  id : Int
  order_number : Int
  total_price : ℚ
  subtotal_price : ℚ
  line_items : List ShopifyLineItem
  customer_email : Option String
  created_at : String
deriving Repr, DecidableEq

structure ShopifyInventoryLevel where
  inventory_item_id : Int
  location_id : Int
  available : Option Int
deriving Repr, DecidableEq

/-- The combined result of `fetchProducts`, `fetchOrders`, `fetchInventoryLevels`. -/
structure FetchData where
  products : List ShopifyProduct
  orders : List ShopifyOrder
  inventory : List ShopifyInventoryLevel
deriving Repr, DecidableEq

/-- The product upsert of the sync route (route.ts lines 82-114). -/
def toProductRow (storeId : String) (p : ShopifyProduct) : ProductRow :=
  let mainVariant := p.variants.head?
  { store_id := storeId
    shopify_id := toString p.id
    title := p.title
    vendor := jsStrOrNull p.vendor
    product_type := jsStrOrNull p.product_type
    status := p.status
    variants := p.variants.map (fun v =>
      { id := toString v.id, title := v.title, price := v.price,
        inventory_quantity := v.inventory_quantity, cost := v.cost })
    tags := match p.tags with
      | some t => if t = "" then [] else (t.splitOn ",").map String.trim
      | none => []
    cost_per_item := mainVariant.bind (·.cost)
    price := mainVariant.map (·.price)
    inventory_quantity := p.variants.foldl (fun s v => s + v.inventory_quantity) 0 }

/-- The order upsert of the sync route (route.ts lines 119-147). -/
def toOrderRow (storeId : String) (o : ShopifyOrder) : OrderRow :=
  { store_id := storeId
    shopify_id := toString o.id
    order_number := o.order_number
    total_price := o.total_price
    line_items := o.line_items.map (fun li =>
      { product_id := toString li.product_id, variant_id := toString li.variant_id,
        title := li.title, quantity := li.quantity, price := li.price })
    order_date := o.created_at }

/-- The inventory upsert of the sync route (route.ts lines 152-164). -/
def toInventoryRow (storeId : String) (inv : ShopifyInventoryLevel) : InventoryRow :=
  { store_id := storeId
    variant_id := toString inv.inventory_item_id
    quantity := inv.available.getD 0
    location_id := toString inv.location_id }

/-- Request body of POST /api/shopify/sync: either `{store_id}` (cron) or
`{shop, email}` (frontend re-sync). -/
structure SyncReq where
  store_id : Option String
  shop : Option String
  email : Option String
deriving Repr, DecidableEq

inductive SyncRespBody
  /-- 404 `{error: 'Store not found'}` -/
  | storeNotFound
  /-- 403 `{error: 'User not found'}` -/
  | userNotFound
  /-- 404 `{error: 'Store not connected or not owned by user'}` -/
  | notConnected
  /-- 400 `{error: 'store_id or (shop + email) required'}` -/
  | badRequest
  /-- 429 `{error: 'rate_limited', message, last_sync}` -/
  | rateLimited (last_sync : Int)
  /-- 200 `{success: true, last_sync, synced: {products, orders, inventory}}` -/
  | success (last_sync : Int) (products orders inventory : Nat)
  /-- 500 `{error: 'Sync failed', detail}` -/
  | syncFailed
deriving Repr, DecidableEq

/-- The post-rate-limit sync body: mark `syncing`, fetch + upsert the three
data kinds, then mark `synced` with counts; a thrown fetch error reaches the
catch block, which marks the store `error` only when the request carried a
`store_id` (route.ts lines 71-201). -/
def syncBody (now : Int) (fetch : Except Unit FetchData) (req : SyncReq)
    (store : StoreRow) (db : Db) : HttpResp SyncRespBody × Db :=
    let db1 : Db := { db with stores := db.stores.map (fun s =>
      if s.id = store.id then { s with sync_status := "syncing" } else s) }
    match fetch with
    | .error _ =>
      let db2 : Db :=
        if jsTruthyS req.store_id then
          { db1 with stores := db1.stores.map (fun s =>
            if some s.id = req.store_id then { s with sync_status := "error" } else s) }
        else db1
      (⟨500, .syncFailed⟩, db2)
    | .ok fd =>
      let newProducts := fd.products.foldl (fun acc p =>
        upsertBy (fun r => (r.store_id, r.shopify_id)) (toProductRow store.id p) acc)
        db1.products
      let db2 : Db := { db1 with products := newProducts }
      let newOrders := fd.orders.foldl (fun acc o =>
        upsertBy (fun r => (r.store_id, r.shopify_id)) (toOrderRow store.id o) acc)
        db2.orders
      let db3 : Db := { db2 with orders := newOrders }
      let newInventory := fd.inventory.foldl (fun acc i =>
        upsertBy (fun r => (r.store_id, r.variant_id, r.location_id))
          (toInventoryRow store.id i) acc)
        db3.inventory
      let db4 : Db := { db3 with inventory := newInventory }
      let db5 : Db := { db4 with stores := db4.stores.map (fun s =>
        if s.id = store.id then
          { s with sync_status := "synced", last_sync := some now, products_count := fd.products.length, orders_count := fd.orders.length }
        else s) }
      (⟨200, .success now fd.products.length fd.orders.length fd.inventory.length⟩, db5)

/-- Rate-limit gate of the sync route (route.ts lines 57-69): only
user-triggered syncs (a request that carries an `email`) on a store with a
recorded `last_sync` are gated, to one sync per five minutes. -/
def syncRun (now : Int) (fetch : Except Unit FetchData) (req : SyncReq)
    (store : StoreRow) (db : Db) : HttpResp SyncRespBody × Db :=
  match store.last_sync, jsTruthyS req.email with
  | some t, true =>
    if now - t < 5 * 60 * 1000 then (⟨429, .rateLimited t⟩, db)
    else syncBody now fetch req store db
  | _, _ => syncBody now fetch req store db

/-- `POST` of app/api/shopify/sync/route.ts: store resolution (cron by
`store_id`, frontend by `shop` + `email` ownership check), then `syncRun`. -/
def syncPOST (now : Int) (fetch : Except Unit FetchData) (req : SyncReq)
    (db : Db) : HttpResp SyncRespBody × Db :=
  if jsTruthyS req.store_id then
    match db.stores.find? (fun s => decide (some s.id = req.store_id)) with
    | none => (⟨404, .storeNotFound⟩, db)
    | some store => syncRun now fetch req store db
  else if jsTruthyS req.shop && jsTruthyS req.email then
    match db.users.find? (fun u => decide (some u.email = req.email)) with
    | none => (⟨403, .userNotFound⟩, db)
    | some user =>
      match db.stores.find?
          (fun s => decide (some s.shop_domain = req.shop ∧ s.user_id = user.id)) with
      | none => (⟨404, .notConnected⟩, db)
      | some store => syncRun now fetch req store db
  else (⟨400, .badRequest⟩, db)

end Sync

end Invop

/-! ## C1 theorems -/

open Invop in
/-- A concrete stand-in for the base64-encoded HMAC-SHA-256 digest; every such
digest is a 44-character base64 string, and the route's control flow depends
only on the digest's value, not on how it is computed. -/
def cDigest : String → String → String :=
  fun _ _ => "AAAAAAAAAAAAAAAAAAAAAAAAAAAAAAAAAAAAAAAAAAA="

/-- A processing continuation that always succeeds without touching the db. -/
def cProcess : Invop.WebhookProcess := fun _ _ _ db => .ok db

def emptyDb : Invop.Db := ⟨[], [], [], [], []⟩

/-- Helper: when does `verifyWebhook` return `.ok false`? -/
theorem verifyWebhook_eq_ok_false_iff (digest : String → String → String)
    (secret : Option String) (body : String) (hmac : Option String) :
    Invop.verifyWebhook digest secret body hmac = .ok false ↔
      (¬ jsTruthyS hmac = true ∨ ¬ jsTruthyS secret = true ∨
        (∃ h s, hmac = some h ∧ secret = some s ∧ h ≠ "" ∧ s ≠ "" ∧
          (digest s body).utf8ByteSize = h.utf8ByteSize ∧ digest s body ≠ h)) := by
  cases hmac with
  | none => simp [Invop.verifyWebhook, jsTruthyS]
  | some h =>
    cases secret with
    | none => simp [Invop.verifyWebhook, jsTruthyS]
    | some s =>
      by_cases hh : h = "" <;> by_cases hs : s = "" <;>
        simp [Invop.verifyWebhook, Invop.timingSafeEqual, jsTruthyS, hh, hs] <;>
        by_cases hl : (digest s body).utf8ByteSize = h.utf8ByteSize <;>
          simp [hl] <;> tauto

/-- C1 (counterexample): the claim "if the HMAC signature header does not
match the hash of the raw body under the adapter secret, the response is 401"
fails: a signature whose byte length differs from the 44-byte computed digest
makes `crypto.timingSafeEqual` throw, the catch-all answers 200 {ok: true} —
here the header "bad" differs from the computed digest yet the status is 200. -/
theorem C1_counterexample :
    (Invop.webhookPOST cDigest (some "sec") cProcess
        ⟨"rawbody", some "s.myshopify.com", some "orders/create", some "bad"⟩
        emptyDb).1.status = 200 ∧
      "bad" ≠ cDigest "sec" "rawbody" := by
  constructor
  · rfl
  · decide

/-- C1 (amended): the response is 401 {error: "Invalid HMAC"} with no rows
written iff the signature header is missing/empty, the adapter secret is
missing/empty, or the header has the same byte length as the computed digest
but a different value; a present signature of a different byte length throws
inside the comparison and is answered 200 by the catch-all.  After successful
verification, a missing shop-domain or topic header yields 400 with no rows
written, and every other path (including internal errors during processing)
responds 200. -/
theorem C1_amended (digest : String → String → String) (secret : Option String)
    (process : Invop.WebhookProcess) (req : Invop.WebhookReq) (db : Invop.Db) :
    ((Invop.webhookPOST digest secret process req db).1.status = 401 ↔
      (¬ jsTruthyS req.hmac = true ∨ ¬ jsTruthyS secret = true ∨
        (∃ h s, req.hmac = some h ∧ secret = some s ∧ h ≠ "" ∧ s ≠ "" ∧
          (digest s req.body).utf8ByteSize = h.utf8ByteSize ∧ digest s req.body ≠ h))) ∧
    ((Invop.webhookPOST digest secret process req db).1.status = 401 →
      (Invop.webhookPOST digest secret process req db).1.body = .invalidHmac ∧
      (Invop.webhookPOST digest secret process req db).2 = db) ∧
    ((Invop.webhookPOST digest secret process req db).1.status = 400 ↔
      Invop.verifyWebhook digest secret req.body req.hmac = .ok true ∧
        ¬(jsTruthyS req.shopDomain = true ∧ jsTruthyS req.topic = true)) ∧
    ((Invop.webhookPOST digest secret process req db).1.status = 400 →
      (Invop.webhookPOST digest secret process req db).2 = db) ∧
    ((Invop.webhookPOST digest secret process req db).1.status ≠ 401 →
      (Invop.webhookPOST digest secret process req db).1.status ≠ 400 →
      (Invop.webhookPOST digest secret process req db).1.status = 200) := by
  rw [← verifyWebhook_eq_ok_false_iff digest secret req.body req.hmac]
  unfold Invop.webhookPOST
  rcases hv : Invop.verifyWebhook digest secret req.body req.hmac with _ | b
  · simp
  · cases b with
    | false => simp
    | true =>
      by_cases hh : jsTruthyS req.shopDomain = true ∧ jsTruthyS req.topic = true
      · simp only [hh, and_self, if_true]
        rcases process req.body ((req.shopDomain).getD "") ((req.topic).getD "") db with db2 | db2 <;>
          simp [hh]
      · simp [hh]

/-- Witness for `C1_amended`: a request with no signature header is refused
with 401 and leaves the database untouched. -/
theorem C1_amended_witness :
    (Invop.webhookPOST cDigest (some "sec") cProcess
        ⟨"rawbody", some "s.myshopify.com", some "orders/create", none⟩ emptyDb).1.status = 401 ∧
    (Invop.webhookPOST cDigest (some "sec") cProcess
        ⟨"rawbody", some "s.myshopify.com", some "orders/create", none⟩ emptyDb).2 = emptyDb := by
  have h := C1_amended cDigest (some "sec") cProcess
    ⟨"rawbody", some "s.myshopify.com", some "orders/create", none⟩ emptyDb
  have h401 : (Invop.webhookPOST cDigest (some "sec") cProcess
      ⟨"rawbody", some "s.myshopify.com", some "orders/create", none⟩ emptyDb).1.status = 401 :=
    h.1.mpr (Or.inl (by decide))
  exact ⟨h401, (h.2.1 h401).2⟩

/-! ## C2 theorems -/

/-- C2: a user-triggered POST /sync (`{shop, email}`) on a store whose
`last_sync` is less than 5 minutes old answers 429 `{error: "rate_limited",
last_sync}`; at 5 minutes or later (with a successful fetch) it answers 200;
and a request without an email (the scheduler's `{store_id}` form) is never
rate-limited. -/
theorem C2_rate_limit (now : Int) (fetch : Except Unit Invop.Sync.FetchData)
    (req : Invop.Sync.SyncReq) (db : Invop.Db) :
    (∀ user store t,
      jsTruthyS req.store_id = false →
      jsTruthyS req.shop = true → jsTruthyS req.email = true →
      db.users.find? (fun u => decide (some u.email = req.email)) = some user →
      db.stores.find?
          (fun s => decide (some s.shop_domain = req.shop ∧ s.user_id = user.id)) = some store →
      store.last_sync = some t →
      now - t < 5 * 60 * 1000 →
      (Invop.Sync.syncPOST now fetch req db).1 = ⟨429, .rateLimited t⟩) ∧
    (∀ user store t fd,
      jsTruthyS req.store_id = false →
      jsTruthyS req.shop = true → jsTruthyS req.email = true →
      db.users.find? (fun u => decide (some u.email = req.email)) = some user →
      db.stores.find?
          (fun s => decide (some s.shop_domain = req.shop ∧ s.user_id = user.id)) = some store →
      store.last_sync = some t →
      5 * 60 * 1000 ≤ now - t →
      fetch = .ok fd →
      (Invop.Sync.syncPOST now fetch req db).1.status = 200) ∧
    (jsTruthyS req.email = false →
      (Invop.Sync.syncPOST now fetch req db).1.status ≠ 429) := by
  refine ⟨?_, ?_, ?_⟩
  · intro user store t hsid hshop hemail hu hs hls hlt
    simp only [Invop.Sync.syncPOST, hsid, Bool.false_eq_true, if_false, hshop, hemail,
      Bool.and_self, if_true, hu, hs]
    simp only [Invop.Sync.syncRun, hls, hemail]
    rw [if_pos hlt]
  · intro user store t fd hsid hshop hemail hu hs hls hge hfd
    simp only [Invop.Sync.syncPOST, hsid, Bool.false_eq_true, if_false, hshop, hemail,
      Bool.and_self, if_true, hu, hs]
    simp only [Invop.Sync.syncRun, hls, hemail]
    rw [if_neg (not_lt.mpr hge)]
    simp [Invop.Sync.syncBody, hfd]
  · intro hemail
    have body200or500 : ∀ store db',
        (Invop.Sync.syncBody now fetch req store db').1.status ≠ 429 := by
      intro store db'
      cases fetch <;> simp [Invop.Sync.syncBody]
    have run : ∀ store db',
        (Invop.Sync.syncRun now fetch req store db').1.status ≠ 429 := by
      intro store db'
      cases hls : store.last_sync with
      | none => simpa [Invop.Sync.syncRun, hls] using body200or500 store db'
      | some t => simpa [Invop.Sync.syncRun, hls, hemail] using body200or500 store db'
    by_cases hsid : jsTruthyS req.store_id = true
    · simp only [Invop.Sync.syncPOST, hsid, if_true]
      cases db.stores.find? (fun s => decide (some s.id = req.store_id)) with
      | none => simp
      | some store => exact run store db
    · simp only [Invop.Sync.syncPOST, hsid, Bool.not_eq_true] at *
      simp only [Invop.Sync.syncPOST, hsid, Bool.false_eq_true, if_false, hemail,
        Bool.and_false, Bool.false_eq_true, if_false]
      simp

/-- Witness for `C2_rate_limit`: a concrete store synced 30 seconds ago is
refused with 429 for a user-triggered sync; the same request without an email
is not. -/
theorem C2_rate_limit_witness :
    (Invop.Sync.syncPOST 30000 (.ok ⟨[], [], []⟩)
        ⟨none, some "s.myshopify.com", some "u@t.io"⟩
        ⟨[⟨"st1", "s.myshopify.com", "u1", "tok", "synced", some 0, 0, 0⟩],
         [⟨"u1", "u@t.io", "pro"⟩], [], [], []⟩).1 =
      ⟨429, .rateLimited 0⟩ ∧
    (Invop.Sync.syncPOST 30000 (.ok ⟨[], [], []⟩)
        ⟨some "st1", none, none⟩
        ⟨[⟨"st1", "s.myshopify.com", "u1", "tok", "synced", some 0, 0, 0⟩],
         [⟨"u1", "u@t.io", "pro"⟩], [], [], []⟩).1.status ≠ 429 := by
  constructor
  · exact (C2_rate_limit 30000 (.ok ⟨[], [], []⟩)
      ⟨none, some "s.myshopify.com", some "u@t.io"⟩
      ⟨[⟨"st1", "s.myshopify.com", "u1", "tok", "synced", some 0, 0, 0⟩],
       [⟨"u1", "u@t.io", "pro"⟩], [], [], []⟩).1
      ⟨"u1", "u@t.io", "pro"⟩ ⟨"st1", "s.myshopify.com", "u1", "tok", "synced", some 0, 0, 0⟩ 0
      (by decide) (by decide) (by decide) (by decide) (by decide) (by decide) (by decide)
  · exact (C2_rate_limit 30000 (.ok ⟨[], [], []⟩)
      ⟨some "st1", none, none⟩
      ⟨[⟨"st1", "s.myshopify.com", "u1", "tok", "synced", some 0, 0, 0⟩],
       [⟨"u1", "u@t.io", "pro"⟩], [], [], []⟩).2.2 (by decide)

/-! ## String helpers for the JS string methods used by the routes
(`includes`, `substring`, `split`, `join`), written over `List Char` so they
evaluate by kernel reduction. -/

/-- Does the second list occur at the start of the first? -/
def startsWithL : List Char → List Char → Bool
  | _, [] => true
  | [], _ :: _ => false
  | a :: as, b :: bs => a = b && startsWithL as bs

/-- Does the second list occur contiguously anywhere in the first? -/
def containsL : List Char → List Char → Bool
  | [], needle => needle.isEmpty
  | l@(_ :: rest), needle => startsWithL l needle || containsL rest needle

/-- JS `s.includes(pat)`. -/
def jsIncludes (s pat : String) : Bool := containsL s.data pat.data

/-- JS `s.substring(0, n)`. -/
def jsSubstringTo (s : String) (n : Nat) : String := String.mk (s.data.take n)

/-- Split a character list at every occurrence of `c`. -/
def splitOnCharL (c : Char) : List Char → List (List Char)
  | [] => [[]]
  | a :: as =>
    match splitOnCharL c as with
    | [] => if a = c then [[], []] else [[a]]
    | piece :: rest => if a = c then [] :: piece :: rest else (a :: piece) :: rest

/-- Extract the (first) value of a query parameter from a URL, reading the
part after `?` as `&`-separated `key=value` pairs. -/
def queryParam (url key : String) : Option String :=
  match splitOnCharL '?' url.data with
  | _ :: query :: _ =>
    ((splitOnCharL '&' query).filterMap (fun kv =>
      match splitOnCharL '=' kv with
      | k :: v :: _ => if k = key.data then some (String.mk v) else none
      | _ => none)).head?
  | _ => none

namespace Invop

/-! ## C9: GET /api/debug/store (debug store endpoint) -/

/-- The `store` object of the debug response: the selected columns, a token
presence flag and the token preview `access_token.substring(0, 8) + '...'`. -/
structure DebugStoreInfo where
  id : String
  shop_domain : String
  sync_status : String
  last_sync : Option Int
  products_count : Nat
  orders_count : Nat
  has_access_token : Bool
  access_token_preview : Option String
deriving Repr, DecidableEq

/-- The `actual_counts` object of the debug response. -/
structure DebugCounts where
  products : Nat
  orders : Nat
  inventory : Nat
deriving Repr, DecidableEq

/-- Columns selected for the `all_stores` fallback listing (no token). -/
structure StoreSummary where
  id : String
  shop_domain : String
  sync_status : String
  last_sync : Option Int
  products_count : Nat
  orders_count : Nat
deriving Repr, DecidableEq

inductive DebugResp
  /-- `{error: 'Store not found for domain', shop, all_stores}` -/
  | notFound (shop : Option String) (all_stores : List StoreSummary)
  | found (store : DebugStoreInfo) (actual_counts : DebugCounts)
deriving Repr, DecidableEq

/-- `GET` of the debug store endpoint: look the store up by
`shop_domain = shop || ''`, else list all stores; on success return the
store record with the token reduced to a flag and an 8-character preview,
plus exact table counts. -/
def debugStoreGET (shop : Option String) (db : Db) : DebugResp :=
  match db.stores.find? (fun s => decide (s.shop_domain = jsStrOr shop "")) with
  | none => .notFound shop (db.stores.map (fun s =>
      ⟨s.id, s.shop_domain, s.sync_status, s.last_sync, s.products_count, s.orders_count⟩))
  | some store =>
    .found
      { id := store.id
        shop_domain := store.shop_domain
        sync_status := store.sync_status
        last_sync := store.last_sync
        products_count := store.products_count
        orders_count := store.orders_count
        has_access_token := store.access_token ≠ ""
        access_token_preview :=
          if store.access_token = "" then none
          else some (jsSubstringTo store.access_token 8 ++ "...") }
      { products := (db.products.filter (fun p => p.store_id = store.id)).length
        orders := (db.orders.filter (fun o => o.store_id = store.id)).length
        inventory := (db.inventory.filter (fun i => i.store_id = store.id)).length }

/-! ## C10: GET /api/shopify/auth and the OAuth helpers (lib/shopify.ts) -/

/-- `buildShopifyAuthUrl` (lib/shopify.ts lines 118-127).  The environment
values (`SHOPIFY_API_KEY`, `SHOPIFY_SCOPES`, app URL), `encodeURIComponent`
and the generated `crypto.randomUUID()` nonce are passed in as data.  The
source function takes ONLY the shop: it has no carry/email parameter, and its
`state` is the bare nonce. -/
def buildShopifyAuthUrl (apiKey scopes appUrl : String) (enc : String → String)
    (nonce : String) (shop : String) : String :=
  "https://" ++ shop ++ "/admin/oauth/authorize?client_id=" ++ apiKey ++
    "&scope=" ++ scopes ++ "&redirect_uri=" ++ enc (appUrl ++ "/api/shopify/callback") ++
    "&state=" ++ nonce

inductive AuthResp
  /-- 400 `{error: 'Missing or invalid shop parameter...'}` -/
  | badShop
  /-- 302 redirect to the provider authorisation URL -/
  | redirect (url : String)
deriving Repr, DecidableEq

/-- `GET` of the shopify auth route: validate and sanitise the shop domain,
then redirect to `buildShopifyAuthUrl(cleanShop, email || undefined)` — the
second argument is silently dropped by the callee's one-parameter signature. -/
def shopifyAuthGET (apiKey scopes appUrl : String) (enc : String → String)
    (nonce : String) (shop : Option String) (email : Option String) : AuthResp :=
  match shop with
  | none => .badShop
  | some sh =>
    if sh = "" ∨ ¬ jsIncludes sh ".myshopify.com" then .badShop
    else
      let cleanShop := String.mk (sh.data.filter (fun c => c.isAlphanum || c = '-' || c = '.'))
      .redirect (buildShopifyAuthUrl apiKey scopes appUrl enc nonce cleanShop)

/-- State decoding of the OAuth callback (app/api/shopify/callback/route.ts
lines 12-19): when the state contains a `:`, the part after the first `:` is
base64-decoded into the tenant email; otherwise no email is recovered. -/
def decodeStateEmail (b64decode : String → String) (state : String) : Option String :=
  if containsL state.data [':'] then
    some (b64decode (String.intercalate ":"
      (((splitOnCharL ':' state.data).map String.mk).drop 1)))
  else none

end Invop

/-! ## C9 theorems -/

/-- `a` occurs as a contiguous substring of `b`. -/
def occursIn (a b : String) : Prop :=
  ∃ pre post : List Char, b.data = pre ++ a.data ++ post

/-- C9 (counterexample): the claim "the Connection's access token is never
included in the response (no endpoint returns the token or any substring of
it)" fails: the debug store endpoint answers with an
`access_token_preview` that embeds `"shpat_se"`, a non-empty substring of the
stored token `"shpat_secret_token_123"`. -/
theorem C9_counterexample :
    Invop.debugStoreGET (some "s.myshopify.com")
        ⟨[⟨"st1", "s.myshopify.com", "u1", "shpat_secret_token_123", "synced", some 0, 3, 4⟩],
         [], [], [], []⟩ =
      .found ⟨"st1", "s.myshopify.com", "synced", some 0, 3, 4, true, some "shpat_se..."⟩
        ⟨0, 0, 0⟩ ∧
    occursIn "shpat_se" "shpat_secret_token_123" ∧
    occursIn "shpat_se" "shpat_se..." ∧
    "shpat_se" ≠ "" := by
  refine ⟨by decide, ⟨[], "cret_token_123".data, by decide⟩,
    ⟨[], "...".data, by decide⟩, by decide⟩

/-- C9 (amended): the API never returns the full token as a field; the debug
endpoint reduces it to a presence flag plus a preview made of the token's
first 8 characters followed by `"..."` — that preview embeds a non-empty
substring (an initial segment) of the token whenever the token is non-empty. -/
theorem C9_amended (db : Invop.Db) (shop : Option String) (store : Invop.StoreRow)
    (hfind : db.stores.find? (fun s => decide (s.shop_domain = jsStrOr shop "")) = some store)
    (hne : store.access_token ≠ "") :
    ∃ info counts, Invop.debugStoreGET shop db = .found info counts ∧
      info.access_token_preview = some (jsSubstringTo store.access_token 8 ++ "...") ∧
      occursIn (jsSubstringTo store.access_token 8) store.access_token ∧
      occursIn (jsSubstringTo store.access_token 8)
        (jsSubstringTo store.access_token 8 ++ "...") ∧
      jsSubstringTo store.access_token 8 ≠ "" := by
  refine ⟨{ id := store.id, shop_domain := store.shop_domain,
            sync_status := store.sync_status, last_sync := store.last_sync,
            products_count := store.products_count, orders_count := store.orders_count,
            has_access_token := store.access_token ≠ "",
            access_token_preview := some (jsSubstringTo store.access_token 8 ++ "...") },
          ⟨(db.products.filter (fun p => p.store_id = store.id)).length,
           (db.orders.filter (fun o => o.store_id = store.id)).length,
           (db.inventory.filter (fun i => i.store_id = store.id)).length⟩,
          ?_, rfl, ?_, ?_, ?_⟩
  · simp [Invop.debugStoreGET, hfind, hne]
  · exact ⟨[], store.access_token.data.drop 8, by
      simp [jsSubstringTo, List.take_append_drop]⟩
  · exact ⟨[], "...".data, by simp [jsSubstringTo]⟩
  · intro h
    apply hne
    have hdata : store.access_token.data.take 8 = [] := congrArg String.data h
    rcases List.take_eq_nil_iff.mp hdata with h8 | hnil
    · exact absurd h8 (by decide)
    · exact String.ext (by rw [hnil])

/-- Witness for `C9_amended`: the concrete store of the counterexample's
database yields a preview built from its token's first 8 characters. -/
theorem C9_amended_witness :
    ∃ info counts,
      Invop.debugStoreGET (some "s.myshopify.com")
          ⟨[⟨"st1", "s.myshopify.com", "u1", "shpat_secret_token_123", "synced", some 0, 3, 4⟩],
           [], [], [], []⟩ = .found info counts ∧
        info.access_token_preview =
          some (jsSubstringTo "shpat_secret_token_123" 8 ++ "...") ∧
        occursIn (jsSubstringTo "shpat_secret_token_123" 8) "shpat_secret_token_123" ∧
        occursIn (jsSubstringTo "shpat_secret_token_123" 8)
          (jsSubstringTo "shpat_secret_token_123" 8 ++ "...") ∧
        jsSubstringTo "shpat_secret_token_123" 8 ≠ "" := by
  exact C9_amended
    ⟨[⟨"st1", "s.myshopify.com", "u1", "shpat_secret_token_123", "synced", some 0, 3, 4⟩],
     [], [], [], []⟩
    (some "s.myshopify.com")
    ⟨"st1", "s.myshopify.com", "u1", "shpat_secret_token_123", "synced", some 0, 3, 4⟩
    (by decide) (by decide)

/-! ## C10 theorems -/

/-- C10 (code bug): for `GET /connect?shop=s.myshopify.com&email=u@t.io` the
redirect's `state` query parameter is the bare nonce: `buildShopifyAuthUrl`
has no carry parameter (the email argument its caller passes is dropped), so
the state is never of the claimed form `nonce ++ ":" ++ base64(email)` — it
contains no `:` at all, and the callback's decoder recovers no email from it. -/
theorem C10_code_bug :
    Invop.shopifyAuthGET "key" "read_products" "https://app" (fun s => s) "nonce123"
        (some "s.myshopify.com") (some "u@t.io") =
      .redirect ("https://s.myshopify.com/admin/oauth/authorize?client_id=key" ++
        "&scope=read_products&redirect_uri=https://app/api/shopify/callback&state=nonce123") ∧
    queryParam ("https://s.myshopify.com/admin/oauth/authorize?client_id=key" ++
        "&scope=read_products&redirect_uri=https://app/api/shopify/callback&state=nonce123")
      "state" = some "nonce123" ∧
    (∀ b64decode : String → String, Invop.decodeStateEmail b64decode "nonce123" = none) ∧
    (∀ e : String, "nonce123" ≠ "nonce123" ++ ":" ++ e) := by
  refine ⟨by decide, by decide, ?_, ?_⟩
  · intro b64decode
    have hc : containsL "nonce123".data [':'] = false := by decide
    unfold Invop.decodeStateEmail
    rw [hc]
    simp only [Bool.false_eq_true, if_false]
  · intro e h
    have hl := congrArg String.length h
    rw [String.length_append, String.length_append] at hl
    have h8 : ("nonce123" : String).length = 8 := rfl
    have h1 : (":" : String).length = 1 := rfl
    rw [h8, h1] at hl
    omega

namespace Congreso

/-! ## Data model of the congreso-abierto backend (Prisma rows touched by the
workers).  Dates are epoch milliseconds; `(year, month)` pairs stand for the
`getFullYear()/getMonth()` fields used by the metrics worker.  Row ids are
drawn from a `nextId` counter in the database state. -/

structure LegislatorRow where
  id : Nat
  externalId : String
  termStart : Option (Int × Int)
  createdAt : Int × Int
deriving Repr, DecidableEq

structure BillRow where
  id : Nat
  externalId : String
  title : String
  summary : Option String
  type : String
  status : String
  presentedDate : Option Int
  chamber : String
  sourceUrl : Option String
  period : Option String
  sourceRefId : String
deriving Repr, DecidableEq

structure BillAuthorRow where
  billId : Nat
  legislatorId : Nat
  role : String
deriving Repr, DecidableEq

/-- A `BillMovement` row; insertion order is the list order in `Db.movements`. -/
structure MovementRow where
  billId : Nat
  date : Int
  description : String
  fromStatus : Option String
  toStatus : Option String
  orderIndex : Nat
  sourceRefId : String
deriving Repr, DecidableEq

structure VoteEventRow where
  id : Nat
  externalId : String
  title : String
  description : Option String
  date : Int
  result : Option String
  affirmative : Int
  negative : Int
  abstention : Int
  absent : Int
  sessionId : Nat
  sourceRefId : String
deriving Repr, DecidableEq

structure VoteResultRow where
  legislatorId : Nat
  voteEventId : Nat
  vote : String
deriving Repr, DecidableEq

structure SessionRow where
  id : Nat
  externalId : String
  date : Int
  title : Option String
  chamber : String
  period : Option String
  sourceRefId : String
deriving Repr, DecidableEq

structure AttendanceRow where
  legislatorId : Nat
  sessionId : Nat
  status : String
  sourceRefId : String
deriving Repr, DecidableEq

structure CommissionMemberRow where
  legislatorId : Nat
deriving Repr, DecidableEq

/-- A queued feed-generation job (`feedQueue.add`). -/
structure FeedJob where
  type : String
  entityId : Nat
  sourceRefId : String
deriving Repr, DecidableEq

structure Db where
  nextId : Nat
  legislators : List LegislatorRow
  bills : List BillRow
  billAuthors : List BillAuthorRow
  movements : List MovementRow
  voteEvents : List VoteEventRow
  voteResults : List VoteResultRow
  sessions : List SessionRow
  attendances : List AttendanceRow
  legislatorCommissions : List CommissionMemberRow
  feedJobs : List FeedJob
  metricsJobs : List Nat
deriving Repr, DecidableEq

/-! ## Raw payload shapes for the bills and votes feeds -/

structure RawAuthor where
  external_id : String
  role : Option String
deriving Repr, DecidableEq

structure RawMovement where
  date : Int
  description : String
  from_status : Option String
  to_status : Option String
deriving Repr, DecidableEq

structure RawBill where
  external_id : String
  title : String
  summary : Option String
  type : Option String
  status : Option String
  presented_date : Option Int
  source_url : Option String
  period : Option String
  authors : Option (List RawAuthor)
  movements : Option (List RawMovement)
deriving Repr, DecidableEq

structure RawVoteResult where
  legislator_external_id : String
  vote : String
deriving Repr, DecidableEq

structure RawVote where
  session_external_id : String
  session_date : Int
  session_title : Option String
  period : Option String
  external_id : String
  title : String
  description : Option String
  date : Int
  result : Option String
  affirmative : Option Int
  negative : Option Int
  abstention : Option Int
  absent : Option Int
  results : Option (List RawVoteResult)
deriving Repr, DecidableEq

/-! ## NormalizeWorker.normalizeBills
(src/workers/normalize/normalize.worker.ts lines 96-138) -/

/-- `prisma.bill.upsert` keyed `externalId` (lines 100-110).  The update
clause writes `title`, `summary`, `sourceRefId`, and `status: raw.status ||
undefined` — a falsy payload status leaves the stored status unchanged. -/
def upsertBill (raw : RawBill) (sourceRefId : String) (db : Db) : Db × BillRow :=
  match db.bills.find? (fun b => decide (b.externalId = raw.external_id)) with
  | some old =>
    let updated : BillRow := { old with
      title := raw.title
      summary := jsStrOrNull raw.summary
      status := jsStrOr raw.status old.status
      sourceRefId := sourceRefId }
    ({ db with bills := db.bills.map (fun b =>
        if b.externalId = raw.external_id then updated else b) }, updated)
  | none =>
    let created : BillRow :=
      { id := db.nextId
        externalId := raw.external_id
        title := raw.title
        summary := jsStrOrNull raw.summary
        type := jsStrOr raw.type "PROJECT"
        status := jsStrOr raw.status "PRESENTED"
        presentedDate := raw.presented_date
        chamber := "DIPUTADOS"
        sourceUrl := jsStrOrNull raw.source_url
        period := jsStrOrNull raw.period
        sourceRefId := sourceRefId }
    ({ db with nextId := db.nextId + 1, bills := db.bills ++ [created] }, created)

/-- `prisma.billAuthor.upsert` keyed `(billId, legislatorId)` (lines 115-119). -/
def upsertBillAuthor (billId legId : Nat) (role : String) (db : Db) : Db :=
  if db.billAuthors.any (fun a => decide (a.billId = billId ∧ a.legislatorId = legId)) then
    { db with billAuthors := db.billAuthors.map (fun a =>
        if a.billId = billId ∧ a.legislatorId = legId then { a with role := role } else a) }
  else
    { db with billAuthors := db.billAuthors ++ [⟨billId, legId, role⟩] }

/-- One author entry of the `if (raw.authors)` loop (lines 111-123): look the
legislator up by external id (silently skipping unknown ones), upsert the
`BillAuthor` row and record the legislator as affected. -/
def authorStep (billId : Nat) (a : Db × List Nat) (author : RawAuthor) : Db × List Nat :=
  match a.1.legislators.find? (fun l => decide (l.externalId = author.external_id)) with
  | some leg =>
    (upsertBillAuthor billId leg.id (jsStrOr author.role "AUTHOR") a.1,
     if leg.id ∈ a.2 then a.2 else a.2 ++ [leg.id])
  | none => a

/-- One iteration of the `for (const raw of data)` loop of `normalizeBills`:
the existence check, the bill upsert, the author upserts (skipping unknown
legislators), the movement creations with `orderIndex: i`, and the feed-job
enqueueing; the `affected` legislator set is threaded as a dedup list. -/
def processRawBill (sourceRefId : String) (acc : Db × List Nat) (raw : RawBill) :
    Db × List Nat :=
  let db := acc.1
  let existing := db.bills.find? (fun b => decide (b.externalId = raw.external_id))
  let ub := upsertBill raw sourceRefId db
  let db1 := ub.1
  let bill := ub.2
  let step2 := (raw.authors.getD []).foldl (authorStep bill.id) (db1, acc.2)
  let db2 := step2.1
  let db3 := { db2 with movements := db2.movements ++
    (raw.movements.getD []).enum.map (fun im =>
      { billId := bill.id
        date := im.2.date
        description := im.2.description
        fromStatus := jsStrOrNull im.2.from_status
        toStatus := jsStrOrNull im.2.to_status
        orderIndex := im.1
        sourceRefId := sourceRefId }) }
  let db4 :=
    match existing with
    | none => { db3 with feedJobs := db3.feedJobs ++ [⟨"BILL_CREATED", bill.id, sourceRefId⟩] }
    | some _ =>
      if (raw.movements.getD []).length > 0 then
        { db3 with feedJobs := db3.feedJobs ++ [⟨"BILL_MOVEMENT", bill.id, sourceRefId⟩] }
      else db3
  (db4, step2.2)

/-- `normalizeBills` (lines 96-138): process each raw bill, then enqueue one
`recompute-legislator` metrics job per affected legislator. -/
def normalizeBills (data : List RawBill) (sourceRefId : String) (db : Db) : Db :=
  let p := data.foldl (processRawBill sourceRefId) (db, [])
  { p.1 with metricsJobs := p.1.metricsJobs ++ p.2 }

/-! ## NormalizeWorker.normalizeVotes (lines 140-177) -/

/-- One result entry of the `if (raw.results)` loop (lines 160-172): look the
legislator up by external id (silently skipping unknown ones), upsert the
`VoteResult` row keyed `(legislatorId, voteEventId)` and record the
legislator as affected. -/
def voteResultStep (veId : Nat) (a : Db × List Nat) (r : RawVoteResult) : Db × List Nat :=
  match a.1.legislators.find? (fun l => decide (l.externalId = r.legislator_external_id)) with
  | some leg =>
    let db' :=
      if a.1.voteResults.any (fun vr =>
          decide (vr.legislatorId = leg.id ∧ vr.voteEventId = veId)) then
        { a.1 with voteResults := a.1.voteResults.map (fun vr =>
            if vr.legislatorId = leg.id ∧ vr.voteEventId = veId then
              { vr with vote := r.vote } else vr) }
      else { a.1 with voteResults := a.1.voteResults ++ [⟨leg.id, veId, r.vote⟩] }
    (db', if leg.id ∈ a.2 then a.2 else a.2 ++ [leg.id])
  | none => a

/-- One iteration of the `for (const raw of data)` loop of `normalizeVotes`:
session findFirst-or-create, the vote-event upsert (whose update clause
overwrites ONLY `title`, `result`, `affirmative` and `negative`), the
vote-result upserts keyed `(legislatorId, voteEventId)` (skipping unknown
legislators), and the feed job. -/
def processRawVote (sourceRefId : String) (acc : Db × List Nat) (raw : RawVote) :
    Db × List Nat :=
  let db := acc.1
  let s1 : Db × SessionRow :=
    match db.sessions.find? (fun s => decide (s.externalId = raw.session_external_id)) with
    | some s => (db, s)
    | none =>
      let s : SessionRow :=
        { id := db.nextId
          externalId := raw.session_external_id
          date := raw.session_date
          title := jsStrOrNull raw.session_title
          chamber := "DIPUTADOS"
          period := jsStrOrNull raw.period
          sourceRefId := sourceRefId }
      ({ db with nextId := db.nextId + 1, sessions := db.sessions ++ [s] }, s)
  let db1 := s1.1
  let session := s1.2
  let v1 : Db × VoteEventRow :=
    match db1.voteEvents.find? (fun v => decide (v.externalId = raw.external_id)) with
    | some old =>
      let upd : VoteEventRow := { old with
        title := raw.title
        result := jsStrOrNull raw.result
        affirmative := raw.affirmative.getD 0
        negative := raw.negative.getD 0 }
      ({ db1 with voteEvents := db1.voteEvents.map (fun v =>
          if v.externalId = raw.external_id then upd else v) }, upd)
    | none =>
      let created : VoteEventRow :=
        { id := db1.nextId
          externalId := raw.external_id
          title := raw.title
          description := jsStrOrNull raw.description
          date := raw.date
          result := jsStrOrNull raw.result
          affirmative := raw.affirmative.getD 0
          negative := raw.negative.getD 0
          abstention := raw.abstention.getD 0
          absent := raw.absent.getD 0
          sessionId := session.id
          sourceRefId := sourceRefId }
      ({ db1 with nextId := db1.nextId + 1, voteEvents := db1.voteEvents ++ [created] }, created)
  let db2 := v1.1
  let ve := v1.2
  let step3 := (raw.results.getD []).foldl (voteResultStep ve.id) (db2, acc.2)
  let db3 := { step3.1 with feedJobs := step3.1.feedJobs ++ [⟨"VOTE_RESULT", ve.id, sourceRefId⟩] }
  (db3, step3.2)

/-- `normalizeVotes` (lines 140-177). -/
def normalizeVotes (data : List RawVote) (sourceRefId : String) (db : Db) : Db :=
  let p := data.foldl (processRawVote sourceRefId) (db, [])
  { p.1 with metricsJobs := p.1.metricsJobs ++ p.2 }

/-! ## MetricsWorker.computeMetrics
(src/workers/metrics/metrics.worker.ts lines 197-226) -/

/-- JS `Math.round`: round half toward positive infinity. -/
def jsMathRound (q : ℚ) : ℤ := ⌊q + 1/2⌋

/-- `Math.round(n * 10000) / 10000`. -/
def round4 (q : ℚ) : ℚ := (jsMathRound (q * 10000) : ℚ) / 10000

/-- The `LegislatorMetric` row written by the upsert at lines 221-225; both
the create and the update clause write the same scalar values. -/
structure MetricRow where
  legislatorId : Nat
  period : String
  billsAuthored : Nat
  billsCosigned : Nat
  billsWithAdvancement : Nat
  advancementRate : ℚ
  sessionsTotal : Nat
  sessionsPresent : Nat
  attendanceRate : ℚ
  voteEventsTotal : Nat
  voteEventsParticipated : Nat
  voteParticipationRate : ℚ
  commissionsCount : Nat
  monthsInOffice : Int
  normalizedProductivity : ℚ
deriving Repr, DecidableEq

/-- `computeMetrics` (lines 197-226) as a pure function of the database and
the current date (`nowY`/`nowM` are `getFullYear()`/`getMonth()`); returns
`none` when the legislator does not exist (the worker returns early). -/
def computeMetrics (nowY nowM : Int) (db : Db) (legislatorId : Nat) : Option MetricRow :=
  match db.legislators.find? (fun l => decide (l.id = legislatorId)) with
  | none => none
  | some leg =>
    let billsAuthored := (db.billAuthors.filter (fun a =>
      a.legislatorId = legislatorId ∧ a.role = "AUTHOR")).length
    let billsCosigned := (db.billAuthors.filter (fun a =>
      a.legislatorId = legislatorId ∧ a.role = "COAUTHOR")).length
    let billsWithAdvancement := (db.bills.filter (fun b =>
      (db.billAuthors.any (fun a =>
        a.billId = b.id ∧ a.legislatorId = legislatorId ∧ a.role = "AUTHOR")) ∧
      (db.movements.any (fun m => m.billId = b.id)) ∧
      b.status ≠ "PRESENTED")).length
    let advancementRate : ℚ :=
      if billsAuthored > 0 then (billsWithAdvancement : ℚ) / (billsAuthored : ℚ) else 0
    let sessionsTotal := (db.attendances.filter (fun a =>
      a.legislatorId = legislatorId)).length
    let sessionsPresent := (db.attendances.filter (fun a =>
      a.legislatorId = legislatorId ∧ a.status = "PRESENT")).length
    let attendanceRate : ℚ :=
      if sessionsTotal > 0 then (sessionsPresent : ℚ) / (sessionsTotal : ℚ) else 0
    let voteEventsTotal := (db.voteResults.filter (fun v =>
      v.legislatorId = legislatorId)).length
    let voteEventsParticipated := (db.voteResults.filter (fun v =>
      v.legislatorId = legislatorId ∧ v.vote ≠ "ABSENT")).length
    let voteParticipationRate : ℚ :=
      if voteEventsTotal > 0 then (voteEventsParticipated : ℚ) / (voteEventsTotal : ℚ) else 0
    let commissionsCount := (db.legislatorCommissions.filter (fun c =>
      c.legislatorId = legislatorId)).length
    let termStart := leg.termStart.getD leg.createdAt
    let monthsInOffice : Int := max 1 ((nowY - termStart.1) * 12 + (nowM - termStart.2))
    let normalizedProductivity : ℚ := (billsAuthored : ℚ) / (monthsInOffice : ℚ)
    some
      { legislatorId := legislatorId
        period := toString nowY
        billsAuthored := billsAuthored
        billsCosigned := billsCosigned
        billsWithAdvancement := billsWithAdvancement
        advancementRate := round4 advancementRate
        sessionsTotal := sessionsTotal
        sessionsPresent := sessionsPresent
        attendanceRate := round4 attendanceRate
        voteEventsTotal := voteEventsTotal
        voteEventsParticipated := voteEventsParticipated
        voteParticipationRate := round4 voteParticipationRate
        commissionsCount := commissionsCount
        monthsInOffice := monthsInOffice
        normalizedProductivity := round4 normalizedProductivity }

/-- The spec's formula for `bills_with_advancement` (§4.6.1): count of bills
whose author set contains L with role AUTHOR and whose status ≠ PRESENTED —
stated from the spec's words, with no condition on movements, to be compared
with `computeMetrics`. -/
def specBillsWithAdvancement (db : Db) (legislatorId : Nat) : Nat :=
  (db.bills.filter (fun b =>
    (db.billAuthors.any (fun a =>
      a.billId = b.id ∧ a.legislatorId = legislatorId ∧ a.role = "AUTHOR")) ∧
    b.status ≠ "PRESENTED")).length

/-- Rank of a status in the Bill state machine of the spec (§4.7 forward
chain), used to express "earlier than". -/
def billStatusRank : String → Option Nat
  | "PRESENTED" => some 0
  | "IN_COMMITTEE" => some 1
  | "WITH_OPINION" => some 2
  | "APPROVED_COMMITTEE" => some 3
  | "FLOOR_VOTE" => some 4
  | "APPROVED_CHAMBER" => some 5
  | "SENT_TO_OTHER_CHAMBER" => some 6
  | "APPROVED" => some 7
  | _ => none

end Congreso

/-! ## Concrete fixtures for the legislative claims -/

/-- An empty database with the id counter at 1. -/
def cdb0 : Congreso.Db := ⟨1, [], [], [], [], [], [], [], [], [], [], []⟩

/-- A bills payload with one new bill carrying one movement. -/
def rawB1 : Congreso.RawBill :=
  ⟨"B-1", "T", none, none, none, none, none, none, none, some [⟨0, "m", none, none⟩]⟩

/-- A database holding one bill already in terminal status APPROVED. -/
def cdb4 : Congreso.Db :=
  ⟨10, [], [⟨5, "B-2", "T", none, "PROJECT", "APPROVED", none, "DIPUTADOS", none, none, "sr0"⟩],
   [], [], [], [], [], [], [], [], []⟩

/-- A payload re-sending bill B-2 with top-level status PRESENTED and a
movement whose `to_status` is PRESENTED — earlier than the stored APPROVED. -/
def rawB2 : Congreso.RawBill :=
  ⟨"B-2", "T", none, none, some "PRESENTED", none, none, none, none,
   some [⟨0, "back to start", some "APPROVED", some "PRESENTED"⟩]⟩

/-- A votes payload whose tallies (5 affirmative) disagree with its empty
result list. -/
def rawV1 : Congreso.RawVote :=
  ⟨"S1", 0, none, none, "V1", "V", none, 0, none, some 5, none, none, none, none⟩

/-- Legislator L-1 authors bill 10, which has advanced to IN_COMMITTEE but has
no recorded movements. -/
def cdb7 : Congreso.Db :=
  ⟨100, [⟨1, "L-1", none, (2020, 0)⟩],
   [⟨10, "B-7", "T", none, "PROJECT", "IN_COMMITTEE", none, "DIPUTADOS", none, none, "sr"⟩],
   [⟨10, 1, "AUTHOR"⟩], [], [], [], [], [], [], [], []⟩

/-! ## C3 counterexample -/

/-- C3 (counterexample): the claim "the second run of normalizeBills leaves
the Bill, BillAuthor and BillMovement tables unchanged" fails: `BillMovement`
rows are inserted with `create`, not upserted, so the second run on the same
payload appends the payload's movement again — Bill and BillAuthor are stable
but BillMovement gains one row. -/
theorem C3_counterexample :
    (Congreso.normalizeBills [rawB1] "sr"
        (Congreso.normalizeBills [rawB1] "sr" cdb0)).bills =
      (Congreso.normalizeBills [rawB1] "sr" cdb0).bills ∧
    (Congreso.normalizeBills [rawB1] "sr"
        (Congreso.normalizeBills [rawB1] "sr" cdb0)).billAuthors =
      (Congreso.normalizeBills [rawB1] "sr" cdb0).billAuthors ∧
    (Congreso.normalizeBills [rawB1] "sr"
        (Congreso.normalizeBills [rawB1] "sr" cdb0)).movements ≠
      (Congreso.normalizeBills [rawB1] "sr" cdb0).movements ∧
    (Congreso.normalizeBills [rawB1] "sr"
        (Congreso.normalizeBills [rawB1] "sr" cdb0)).movements.length =
      (Congreso.normalizeBills [rawB1] "sr" cdb0).movements.length + 1 := by
  decide

/-! ## C4 counterexample -/

/-- C4 (counterexample): the claim "the normaliser only advances the status"
fails: the bill upsert overwrites `status` with the payload's top-level
status regardless of state-machine order, so re-sending B-2 (stored as
APPROVED, rank 7) with status PRESENTED (rank 0) moves it backwards; the
movement is still recorded in history. -/
theorem C4_counterexample :
    (Congreso.normalizeBills [rawB2] "sr1" cdb4).bills.map (fun b => b.status) =
      ["PRESENTED"] ∧
    Congreso.billStatusRank "PRESENTED" = some 0 ∧
    Congreso.billStatusRank "APPROVED" = some 7 ∧
    (Congreso.normalizeBills [rawB2] "sr1" cdb4).movements.map (fun m => m.toStatus) =
      [some "PRESENTED"] := by
  decide

/-! ## C5 counterexample -/

/-- Dense contiguous order indices from 0 in list order. -/
def denseFrom0 (l : List Nat) : Prop := l = List.range l.length

/-- C5 (counterexample): the claim "order_index contiguous and dense from 0
... each new movement being appended with order_index equal to the count of
movements already inserted for that bill" fails after two normalizer runs:
the movement rows of bill 1 carry order indices [0, 0] — the second insert
got index 0 (its position in the payload array) although one movement was
already stored. -/
theorem C5_counterexample :
    ((Congreso.normalizeBills [rawB1] "sr"
        (Congreso.normalizeBills [rawB1] "sr" cdb0)).movements.filter
      (fun m => m.billId = 1)).map (fun m => m.orderIndex) = [0, 0] ∧
    ¬ denseFrom0 [0, 0] := by
  constructor
  · decide
  · intro h
    have : ([0, 0] : List Nat) = [0, 1] := h
    exact absurd this (by decide)

/-! ## C6 counterexample -/

/-- C6 (counterexample): the claim "affirmative + negative + abstention +
absent = number of its VoteResult rows" fails: the tallies are copied from
the payload, never reconciled with the VoteResult rows — a payload claiming
5 affirmative votes with an empty result list stores sum 5 against 0 rows. -/
theorem C6_counterexample :
    ((Congreso.normalizeVotes [rawV1] "sr" cdb0).voteEvents.map
      (fun v => v.affirmative + v.negative + v.abstention + v.absent)) = [5] ∧
    (Congreso.normalizeVotes [rawV1] "sr" cdb0).voteResults.length = 0 ∧
    (5 : Int) ≠ 0 := by
  decide

/-! ## C7 theorems -/

/-- C7 (counterexample): the claim "bills_with_advancement = count of bills
whose author set contains L with role AUTHOR and whose status ≠ PRESENTED"
fails: the worker's query additionally requires `movements: { some: {} }`,
so bill 10 (IN_COMMITTEE, authored by L-1, no movements) is counted by the
spec's formula but not by the code. -/
theorem C7_counterexample :
    (Congreso.computeMetrics 2025 5 cdb7 1).map (fun m => m.billsWithAdvancement) =
      some 0 ∧
    Congreso.specBillsWithAdvancement cdb7 1 = 1 ∧ (0 : Nat) ≠ 1 := by
  refine ⟨by decide, by decide, by decide⟩

/-- `Math.round(q*10000)/10000` of a non-negative rational is non-negative. -/
theorem round4_nonneg (q : ℚ) (h0 : 0 ≤ q) : 0 ≤ Congreso.round4 q := by
  unfold Congreso.round4 Congreso.jsMathRound
  have hf : (0 : ℤ) ≤ ⌊q * 10000 + 1 / 2⌋ := Int.floor_nonneg.mpr (by linarith)
  positivity

/-- `Math.round(q*10000)/10000` of a rational at most 1 is at most 1. -/
theorem round4_le_one (q : ℚ) (h1 : q ≤ 1) : Congreso.round4 q ≤ 1 := by
  unfold Congreso.round4 Congreso.jsMathRound
  have hle : q * 10000 + 1 / 2 ≤ 10000 + 1 / 2 := by linarith
  have hf : ⌊q * 10000 + 1 / 2⌋ ≤ ⌊(10000 : ℚ) + 1 / 2⌋ := Int.floor_le_floor hle
  have hv : ⌊(10000 : ℚ) + 1 / 2⌋ = 10000 := by
    rw [Int.floor_eq_iff]
    norm_num
  rw [hv] at hf
  rw [div_le_one (by norm_num)]
  exact_mod_cast hf

/-- Every bill counted by the worker's `billsWithAdvancement` query
contributes a distinct `BillAuthor (L, AUTHOR)` row, so the count is at most
`billsAuthored` (bill ids assumed unique, as Prisma's primary key makes them). -/
theorem billsWithAdvancement_le_billsAuthored (db : Congreso.Db) (L : Nat)
    (hids : (db.bills.map (fun b => b.id)).Nodup) :
    (db.bills.filter (fun b =>
      (db.billAuthors.any (fun a =>
        a.billId = b.id ∧ a.legislatorId = L ∧ a.role = "AUTHOR")) ∧
      (db.movements.any (fun mv => mv.billId = b.id)) ∧
      b.status ≠ "PRESENTED")).length ≤
    (db.billAuthors.filter (fun a =>
      a.legislatorId = L ∧ a.role = "AUTHOR")).length := by
  set p := fun (b : Congreso.BillRow) =>
    decide ((db.billAuthors.any (fun a =>
      a.billId = b.id ∧ a.legislatorId = L ∧ a.role = "AUTHOR")) = true ∧
      (db.movements.any (fun mv => mv.billId = b.id)) = true ∧
      b.status ≠ "PRESENTED") with hp
  have hBn : ((db.bills.filter p).map (fun b => b.id)).Nodup :=
    ((List.filter_sublist db.bills).map (fun b => b.id)).nodup hids
  have hsub : ((db.bills.filter p).map (fun b => b.id)).toFinset ⊆
      ((db.billAuthors.filter (fun a =>
        decide (a.legislatorId = L ∧ a.role = "AUTHOR"))).map
          (fun a => a.billId)).toFinset := by
    intro x hx
    rw [List.mem_toFinset, List.mem_map] at hx
    obtain ⟨b, hbB, hbx⟩ := hx
    rw [List.mem_filter, hp] at hbB
    obtain ⟨hbmem, hbp⟩ := hbB
    rw [decide_eq_true_iff] at hbp
    obtain ⟨hany, _, _⟩ := hbp
    rw [List.any_eq_true] at hany
    obtain ⟨a, hamem, hap⟩ := hany
    rw [decide_eq_true_iff] at hap
    rw [List.mem_toFinset, List.mem_map]
    refine ⟨a, ?_, by rw [← hbx]; exact hap.1⟩
    rw [List.mem_filter]
    exact ⟨hamem, by rw [decide_eq_true_iff]; exact ⟨hap.2.1, hap.2.2⟩⟩
  calc (db.bills.filter p).length
      = ((db.bills.filter p).map (fun b => b.id)).length := by rw [List.length_map]
    _ = ((db.bills.filter p).map (fun b => b.id)).toFinset.card :=
        (List.toFinset_card_of_nodup hBn).symm
    _ ≤ ((db.billAuthors.filter (fun a =>
          decide (a.legislatorId = L ∧ a.role = "AUTHOR"))).map
            (fun a => a.billId)).toFinset.card := Finset.card_le_card hsub
    _ ≤ ((db.billAuthors.filter (fun a =>
          decide (a.legislatorId = L ∧ a.role = "AUTHOR"))).map
            (fun a => a.billId)).length := List.toFinset_card_le _
    _ = _ := by rw [List.length_map]

/-- C7 (amended): `bills_with_advancement` counts bills whose author set
contains L with role AUTHOR, WITH AT LEAST ONE RECORDED MOVEMENT, and status
≠ PRESENTED; `advancement_rate` is that count over `bills_authored` (0 when
none authored), rounded via `Math.round(x*10000)/10000`, and lies in [0, 1]. -/
theorem C7_amended (nowY nowM : Int) (db : Congreso.Db) (L : Nat)
    (m : Congreso.MetricRow)
    (hids : (db.bills.map (fun b => b.id)).Nodup)
    (hm : Congreso.computeMetrics nowY nowM db L = some m) :
    m.billsWithAdvancement = (db.bills.filter (fun b =>
      (db.billAuthors.any (fun a =>
        a.billId = b.id ∧ a.legislatorId = L ∧ a.role = "AUTHOR")) ∧
      (db.movements.any (fun mv => mv.billId = b.id)) ∧
      b.status ≠ "PRESENTED")).length ∧
    m.billsWithAdvancement ≤ m.billsAuthored ∧
    m.advancementRate = (if m.billsAuthored > 0 then
      Congreso.round4 ((m.billsWithAdvancement : ℚ) / (m.billsAuthored : ℚ)) else 0) ∧
    0 ≤ m.advancementRate ∧ m.advancementRate ≤ 1 := by
  cases hfind : db.legislators.find? (fun l => decide (l.id = L)) with
  | none =>
    rw [Congreso.computeMetrics, hfind] at hm
    exact absurd hm (by simp)
  | some leg =>
    rw [Congreso.computeMetrics, hfind] at hm
    simp only [Option.some.injEq] at hm
    subst hm
    refine ⟨rfl, ?_, ?_, ?_, ?_⟩
    · exact billsWithAdvancement_le_billsAuthored db L hids
    · simp only []
      by_cases hb : (db.billAuthors.filter (fun a =>
          decide (a.legislatorId = L ∧ a.role = "AUTHOR"))).length > 0
      · rw [if_pos hb, if_pos hb]
      · rw [if_neg hb, if_neg hb]
        simp [Congreso.round4, Congreso.jsMathRound]
        norm_num
    · by_cases hb : (db.billAuthors.filter (fun a =>
          decide (a.legislatorId = L ∧ a.role = "AUTHOR"))).length > 0
      · simp only [if_pos hb]
        exact round4_nonneg _ (by positivity)
      · simp only [if_neg hb]
        exact round4_nonneg 0 le_rfl
    · by_cases hb : (db.billAuthors.filter (fun a =>
          decide (a.legislatorId = L ∧ a.role = "AUTHOR"))).length > 0
      · simp only [if_pos hb]
        apply round4_le_one
        rw [div_le_one (by exact_mod_cast hb)]
        exact_mod_cast billsWithAdvancement_le_billsAuthored db L hids
      · simp only [if_neg hb]
        exact round4_le_one 0 (by norm_num)

/-- Witness for `C7_amended`: the metrics of legislator 1 of the concrete
database `cdb7` satisfy the amended formula and bounds. -/
theorem C7_amended_witness :
    ∃ m, Congreso.computeMetrics 2025 5 cdb7 1 = some m ∧
      (m.billsWithAdvancement ≤ m.billsAuthored ∧
       0 ≤ m.advancementRate ∧ m.advancementRate ≤ 1) := by
  have h := C7_amended 2025 5 cdb7 1
  cases hm : Congreso.computeMetrics 2025 5 cdb7 1 with
  | none => exact absurd hm (by decide)
  | some m =>
    have h2 := h m (by decide) hm
    exact ⟨m, rfl, h2.2.1, h2.2.2.2.1, h2.2.2.2.2⟩

namespace Invop
namespace Analysis

/-! ## C8: POST /api/ai/analyze — the pure analysis engine
(app/api/ai/interpret/route.ts, third handler, lines 270-562).  The handler's
inputs are the store's `products` (queried with `status = 'active'`), its
`orders`, and the request's `user_costs`/`modules`. -/

/-- The `user_costs` request object: tenant-wide overrides plus optional
per-product cost entries (`user_costs[shopify_id].cost`). -/
structure UserCosts where
  ordering_cost : Option ℚ
  holding_cost_pct : Option ℚ
  fixed_costs : Option ℚ
  opening_balance : Option ℚ
  lead_time : Option ℚ
  perProduct : List (String × ℚ)
deriving Repr, DecidableEq

/-- `user_costs?.[shopify_id]?.cost`. -/
def userCostFor (uc : UserCosts) (sid : String) : Option ℚ :=
  (uc.perProduct.find? (fun pc => decide (pc.1 = sid))).map (fun pc => pc.2)

/-- One element of `productMetrics` (route lines 321-352).  `margin` is
`(price - cost)/price * 100` when a cost is known; the JS value is Infinity
when `price` is 0 — our rational division then yields 0, a case no theorem
below depends on. -/
structure ProductMetric where
  shopify_id : String
  title : String
  price : ℚ
  cost : Option ℚ
  margin : Option ℚ
  inventory : Int
  inventory_value : ℚ
  units_sold : Int
  revenue : ℚ
  has_cost : Bool
deriving Repr, DecidableEq

/-- The per-product metric computation (route lines 321-352): price and cost
defaults via JS truthiness, and the sales scan that takes the FIRST matching
line item of each order. -/
def productMetric (orders : List OrderRow) (uc : UserCosts) (p : ProductRow) :
    ProductMetric :=
  let price := jsNumOrD p.price 0
  let cost := jsNumOrNull p.cost_per_item (userCostFor uc p.shopify_id)
  let sold : Int × ℚ := orders.foldl (fun acc o =>
    match o.line_items.find? (fun li => decide (li.product_id = p.shopify_id)) with
    | some li => (acc.1 + li.quantity, acc.2 + (li.quantity : ℚ) * li.price)
    | none => acc) (0, 0)
  { shopify_id := p.shopify_id
    title := p.title
    price := price
    cost := cost
    margin := cost.map (fun c => (price - c) / price * 100)
    inventory := p.inventory_quantity
    inventory_value := (p.inventory_quantity : ℚ) * price
    units_sold := sold.1
    revenue := sold.2
    has_cost := cost.isSome }

/-- The EOQ inputs prepared for the STOCK solver (route lines 458-464). -/
structure StockInputs where
  D : ℚ
  K : ℚ
  h : ℚ
  L : ℚ
  product_name : String
deriving Repr, DecidableEq

/-- The STOCK entry of `moduleAnalysis` (insights text elided). -/
structure StockModule where
  applicable : Bool
  priority : String
  needs : List String
  inputs : Option StockInputs
deriving Repr, DecidableEq

/-- The comparator `(a, b) => b.inventory - a.inventory`: descending
inventory. -/
def invDesc (a b : ProductMetric) : Bool := decide (b.inventory ≤ a.inventory)

/-- The STOCK module analysis (route lines 434-465). -/
def stockAnalysis (metrics : List ProductMetric) (uc : UserCosts) : StockModule :=
  let hasOrderingCost := jsTruthyQ uc.ordering_cost
  let hasHoldingCost := jsTruthyQ uc.holding_cost_pct
  let topByInventory := metrics.mergeSort invDesc
  let topProduct := topByInventory.head?
  let canRun := topProduct.isSome && hasOrderingCost && hasHoldingCost
  { applicable := topProduct.isSome
    priority := if canRun then "high" else "medium"
    needs := (if ¬hasOrderingCost then ["ordering_cost"] else []) ++
      (if ¬hasHoldingCost then ["holding_cost_pct"] else [])
    inputs :=
      match topProduct, uc.ordering_cost, uc.holding_cost_pct with
      | some tp, some k, some hp =>
        if k ≠ 0 ∧ hp ≠ 0 then
          some
            { D := if tp.units_sold > 0 then (tp.units_sold : ℚ) * 12
                   else (tp.inventory : ℚ) * 4
              K := k
              h := hp / 100 * (jsNumOrD tp.cost tp.price)
              L := jsNumOrD uc.lead_time 7
              product_name := tp.title }
        else none
      | _, _, _ => none }

/-- The STOCK part of the analysis response: the module list defaults to all
four modules when the request names none (route line 400), and the STOCK
entry is produced iff `targetModules` contains it. -/
def analyzeStock (products : List ProductRow) (orders : List OrderRow)
    (uc : UserCosts) (modules : Option (List String)) : Option StockModule :=
  let targetModules := modules.getD ["STOCK", "FORECAST", "RENTABILIDAD", "FLUJO_CAJA"]
  if targetModules.contains "STOCK" then
    some (stockAnalysis (products.map (productMetric orders uc)) uc)
  else none

end Analysis
end Invop

/-- The head of the inventory-descending merge sort is a maximal-inventory
element of the input list. -/
theorem mergeSort_head_max (metrics : List Invop.Analysis.ProductMetric)
    (tp : Invop.Analysis.ProductMetric)
    (h : (metrics.mergeSort Invop.Analysis.invDesc).head? = some tp) :
    tp ∈ metrics ∧ ∀ q ∈ metrics, q.inventory ≤ tp.inventory := by
  have htrans : ∀ a b c, Invop.Analysis.invDesc a b = true →
      Invop.Analysis.invDesc b c = true → Invop.Analysis.invDesc a c = true := by
    intro a b c h1 h2
    simp only [Invop.Analysis.invDesc, decide_eq_true_iff] at *
    exact le_trans h2 h1
  have htotal : ∀ a b, (Invop.Analysis.invDesc a b || Invop.Analysis.invDesc b a) = true := by
    intro a b
    simp only [Invop.Analysis.invDesc, Bool.or_eq_true, decide_eq_true_iff]
    exact le_total b.inventory a.inventory
  have hsorted := List.sorted_mergeSort htrans htotal metrics
  have hperm := List.mergeSort_perm metrics Invop.Analysis.invDesc
  cases hms : metrics.mergeSort Invop.Analysis.invDesc with
  | nil => rw [hms] at h; exact absurd h (by simp)
  | cons hd tl =>
    rw [hms] at h hsorted hperm
    simp only [List.head?_cons, Option.some.injEq] at h
    subst h
    constructor
    · exact hperm.mem_iff.mp (List.mem_cons_self hd tl)
    · intro q hq
      have hq2 : q ∈ hd :: tl := hperm.mem_iff.mpr hq
      rcases List.mem_cons.mp hq2 with rfl | hqtl
      · exact le_refl _
      · have := (List.pairwise_cons.mp hsorted).1 q hqtl
        simpa [Invop.Analysis.invDesc, decide_eq_true_iff] using this

/-- C8: with at least one (active) product and neither `ordering_cost` nor
`holding_cost_pct` supplied (falsy), the analysis returns the STOCK module
with `applicable = true`, `priority = "medium"`,
`needs = ["ordering_cost", "holding_cost_pct"]`, `inputs = null`; with both
costs supplied (truthy), `inputs.D` is `units_sold × 12` for the
top-inventory product when it has sales, else its `inventory × 4`. -/
theorem C8_stock (products : List Invop.ProductRow) (orders : List Invop.OrderRow)
    (uc : Invop.Analysis.UserCosts) :
    (products ≠ [] → jsTruthyQ uc.ordering_cost = false →
      jsTruthyQ uc.holding_cost_pct = false →
      Invop.Analysis.analyzeStock products orders uc none =
        some { applicable := true, priority := "medium",
               needs := ["ordering_cost", "holding_cost_pct"], inputs := none }) ∧
    (products ≠ [] → ∀ k hp, uc.ordering_cost = some k → k ≠ 0 →
      uc.holding_cost_pct = some hp → hp ≠ 0 →
      ∃ tp si,
        Invop.Analysis.analyzeStock products orders uc none =
          some { applicable := true, priority := "high", needs := [], inputs := some si } ∧
        tp ∈ products.map (Invop.Analysis.productMetric orders uc) ∧
        (∀ q ∈ products.map (Invop.Analysis.productMetric orders uc),
          q.inventory ≤ tp.inventory) ∧
        si.D = (if tp.units_sold > 0 then (tp.units_sold : ℚ) * 12
                else (tp.inventory : ℚ) * 4) ∧
        si.K = k ∧ si.product_name = tp.title) := by
  have hne : ∀ (hp : products ≠ []),
      ∃ tp, ((products.map (Invop.Analysis.productMetric orders uc)).mergeSort
        Invop.Analysis.invDesc).head? = some tp := by
    intro hp
    have hmne : products.map (Invop.Analysis.productMetric orders uc) ≠ [] := by
      simpa using hp
    have hperm := List.mergeSort_perm (products.map (Invop.Analysis.productMetric orders uc))
      Invop.Analysis.invDesc
    cases hms : (products.map (Invop.Analysis.productMetric orders uc)).mergeSort
        Invop.Analysis.invDesc with
    | nil =>
      rw [hms] at hperm
      exact absurd (hperm.symm.eq_nil) hmne
    | cons hd tl => exact ⟨hd, by simp⟩
  have hcont : (["STOCK", "FORECAST", "RENTABILIDAD", "FLUJO_CAJA"] :
      List String).contains "STOCK" = true := by decide
  constructor
  · intro hp ho hh
    obtain ⟨tp, htp⟩ := hne hp
    simp only [Invop.Analysis.analyzeStock, Option.getD_none, hcont, if_true,
      Invop.Analysis.stockAnalysis, htp, ho, hh]
    simp only [Option.isSome_some, Bool.and_false, Bool.false_and, Bool.and_self]
    cases hoc : uc.ordering_cost with
    | none => simp
    | some k =>
      have hk : k = 0 := by
        rw [hoc] at ho
        simpa [jsTruthyQ] using ho
      cases hhc : uc.holding_cost_pct with
      | none => simp
      | some hpv =>
        have hh2 : hpv = 0 := by
          rw [hhc] at hh
          simpa [jsTruthyQ] using hh
        simp [hk, hh2]
  · intro hpne k hpv hoc hk hhc hhp
    obtain ⟨tp, htp⟩ := hne hpne
    obtain ⟨htpmem, htpmax⟩ := mergeSort_head_max _ tp htp
    refine ⟨tp,
      { D := if tp.units_sold > 0 then (tp.units_sold : ℚ) * 12 else (tp.inventory : ℚ) * 4
        K := k
        h := hpv / 100 * (jsNumOrD tp.cost tp.price)
        L := jsNumOrD uc.lead_time 7
        product_name := tp.title },
      ?_, htpmem, htpmax, rfl, rfl, rfl⟩
    have hto : jsTruthyQ uc.ordering_cost = true := by simp [jsTruthyQ, hoc, hk]
    have hth : jsTruthyQ uc.holding_cost_pct = true := by simp [jsTruthyQ, hhc, hhp]
    simp only [Invop.Analysis.analyzeStock, Option.getD_none, hcont, if_true,
      Invop.Analysis.stockAnalysis, htp, hoc, hhc, hto, hth]
    simp [jsTruthyQ, hk, hhp]

/-- Witness for `C8_stock`: one product with inventory 10 and no sales, no
costs supplied, yields the medium-priority STOCK module with both needs;
supplying both costs yields EOQ inputs with `D = 40`. -/
theorem C8_stock_witness :
    (Invop.Analysis.analyzeStock
        [⟨"st1", "p1", "Mate", none, none, "active", [], [], none, some 100, 10⟩] []
        ⟨none, none, none, none, none, []⟩ none =
      some { applicable := true, priority := "medium",
             needs := ["ordering_cost", "holding_cost_pct"], inputs := none }) ∧
    (∃ tp si,
      Invop.Analysis.analyzeStock
          [⟨"st1", "p1", "Mate", none, none, "active", [], [], none, some 100, 10⟩] []
          ⟨some 50, some 20, none, none, none, []⟩ none =
        some { applicable := true, priority := "high", needs := [], inputs := some si } ∧
      tp ∈ ([⟨"st1", "p1", "Mate", none, none, "active", [], [], none, some 100, 10⟩] :
          List Invop.ProductRow).map
        (Invop.Analysis.productMetric [] ⟨some 50, some 20, none, none, none, []⟩) ∧
      (∀ q ∈ ([⟨"st1", "p1", "Mate", none, none, "active", [], [], none, some 100, 10⟩] :
          List Invop.ProductRow).map
        (Invop.Analysis.productMetric [] ⟨some 50, some 20, none, none, none, []⟩),
        q.inventory ≤ tp.inventory) ∧
      si.D = (if tp.units_sold > 0 then (tp.units_sold : ℚ) * 12
              else (tp.inventory : ℚ) * 4) ∧
      si.K = 50 ∧ si.product_name = tp.title) := by
  constructor
  · exact (C8_stock
      [⟨"st1", "p1", "Mate", none, none, "active", [], [], none, some 100, 10⟩] []
      ⟨none, none, none, none, none, []⟩).1 (by simp) (by decide) (by decide)
  · exact (C8_stock
      [⟨"st1", "p1", "Mate", none, none, "active", [], [], none, some 100, 10⟩] []
      ⟨some 50, some 20, none, none, none, []⟩).2 (by simp) 50 20 rfl (by norm_num)
      rfl (by norm_num)

/-! ## Decomposition lemmas for the normalize worker -/

/-- An author step changes only the `billAuthors` table (and the affected
list). -/
theorem authorStep_eta (billId : Nat) (a : Congreso.Db × List Nat)
    (author : Congreso.RawAuthor) :
    ∃ ba aff, Congreso.authorStep billId a author = ({ a.1 with billAuthors := ba }, aff) := by
  cases hleg : a.1.legislators.find? (fun l => decide (l.externalId = author.external_id)) with
  | none =>
    refine ⟨a.1.billAuthors, a.2, ?_⟩
    unfold Congreso.authorStep
    rw [hleg]
  | some leg =>
    unfold Congreso.authorStep Congreso.upsertBillAuthor
    simp only [hleg]
    by_cases h : a.1.billAuthors.any (fun x =>
        decide (x.billId = billId ∧ x.legislatorId = leg.id)) = true
    · rw [if_pos h]
      exact ⟨_, _, rfl⟩
    · rw [if_neg h]
      exact ⟨_, _, rfl⟩

/-- The whole author loop changes only the `billAuthors` table (and the
affected list). -/
theorem authorFold_eta (billId : Nat) (l : List Congreso.RawAuthor)
    (a : Congreso.Db × List Nat) :
    ∃ ba aff, l.foldl (Congreso.authorStep billId) a = ({ a.1 with billAuthors := ba }, aff) := by
  induction l generalizing a with
  | nil => exact ⟨a.1.billAuthors, a.2, rfl⟩
  | cons hd tl ih =>
    obtain ⟨ba1, aff1, h1⟩ := authorStep_eta billId a hd
    obtain ⟨ba2, aff2, h2⟩ := ih (Congreso.authorStep billId a hd)
    refine ⟨ba2, aff2, ?_⟩
    rw [List.foldl_cons, h2, h1]

/-- A vote-result step changes only the `voteResults` table (and the affected
list). -/
theorem voteResultStep_eta (veId : Nat) (a : Congreso.Db × List Nat)
    (r : Congreso.RawVoteResult) :
    ∃ vr aff, Congreso.voteResultStep veId a r = ({ a.1 with voteResults := vr }, aff) := by
  cases hleg : a.1.legislators.find? (fun l => decide (l.externalId = r.legislator_external_id)) with
  | none =>
    refine ⟨a.1.voteResults, a.2, ?_⟩
    unfold Congreso.voteResultStep
    rw [hleg]
  | some leg =>
    unfold Congreso.voteResultStep
    simp only [hleg]
    by_cases h : a.1.voteResults.any (fun vr =>
        decide (vr.legislatorId = leg.id ∧ vr.voteEventId = veId)) = true
    · rw [if_pos h]
      exact ⟨_, _, rfl⟩
    · rw [if_neg h]
      exact ⟨_, _, rfl⟩

/-- The whole vote-result loop changes only the `voteResults` table (and the
affected list). -/
theorem voteResultFold_eta (veId : Nat) (l : List Congreso.RawVoteResult)
    (a : Congreso.Db × List Nat) :
    ∃ vr aff, l.foldl (Congreso.voteResultStep veId) a = ({ a.1 with voteResults := vr }, aff) := by
  induction l generalizing a with
  | nil => exact ⟨a.1.voteResults, a.2, rfl⟩
  | cons hd tl ih =>
    obtain ⟨vr1, aff1, h1⟩ := voteResultStep_eta veId a hd
    obtain ⟨vr2, aff2, h2⟩ := ih (Congreso.voteResultStep veId a hd)
    refine ⟨vr2, aff2, ?_⟩
    rw [List.foldl_cons, h2, h1]

/-- The movement row created for payload index/entry `im` of a bill. -/
def mkMovement (billId : Nat) (sr : String) (im : Nat × Congreso.RawMovement) :
    Congreso.MovementRow :=
  { billId := billId
    date := im.2.date
    description := im.2.description
    fromStatus := jsStrOrNull im.2.from_status
    toStatus := jsStrOrNull im.2.to_status
    orderIndex := im.1
    sourceRefId := sr }

/-- Running `normalizeBills` on a one-bill payload: the bills table is the
bill upsert's result, the movement table gains exactly the payload's
movements (indexed by payload position, owner = the upserted bill), and only
`billAuthors`, `feedJobs` and `metricsJobs` change besides. -/
theorem normalizeBills_single (raw : Congreso.RawBill) (sr : String) (db : Congreso.Db) :
    ∃ ba fj mj,
      Congreso.normalizeBills [raw] sr db =
        { (Congreso.upsertBill raw sr db).1 with
            billAuthors := ba
            movements := db.movements ++
              (raw.movements.getD []).enum.map (mkMovement (Congreso.upsertBill raw sr db).2.id sr)
            feedJobs := fj
            metricsJobs := mj } := by
  unfold Congreso.normalizeBills
  rw [List.foldl_cons, List.foldl_nil]
  unfold Congreso.processRawBill
  obtain ⟨ba, aff, hfold⟩ :=
    authorFold_eta (Congreso.upsertBill raw sr db).2.id (raw.authors.getD [])
      ((Congreso.upsertBill raw sr db).1, ([] : List Nat))
  simp only [hfold]
  have hmv : (Congreso.upsertBill raw sr db).1.movements = db.movements := by
    unfold Congreso.upsertBill
    cases db.bills.find? (fun b => decide (b.externalId = raw.external_id)) <;> rfl
  cases hex : db.bills.find? (fun b => decide (b.externalId = raw.external_id)) with
  | none =>
    simp only [hmv, mkMovement]
    exact ⟨ba, _, _, rfl⟩
  | some old =>
    by_cases hlen : (raw.movements.getD []).length > 0
    · simp only [hmv, mkMovement, if_pos hlen]
      exact ⟨ba, _, _, rfl⟩
    · simp only [hmv, mkMovement, if_neg hlen]
      exact ⟨ba, _, _, rfl⟩

/-- C4 (amended): for an existing bill, normalizing a payload records every
payload movement in history and never lets a movement's `to_status` touch the
bill's current status; the current status is overwritten with the payload's
top-level `status` field whenever that field is non-empty — regardless of
state-machine order, so it can move backwards — and kept otherwise. -/
theorem C4_amended (db : Congreso.Db) (raw : Congreso.RawBill) (sr : String)
    (b : Congreso.BillRow)
    (hfind : db.bills.find? (fun x => decide (x.externalId = raw.external_id)) = some b) :
    (∀ x ∈ (Congreso.normalizeBills [raw] sr db).bills, x.externalId = raw.external_id →
      x.status = jsStrOr raw.status b.status) ∧
    (Congreso.normalizeBills [raw] sr db).movements =
      db.movements ++ (raw.movements.getD []).enum.map (mkMovement b.id sr) := by
  obtain ⟨ba, fj, mj, hnorm⟩ := normalizeBills_single raw sr db
  have hub : (Congreso.upsertBill raw sr db).2 = { b with title := raw.title, summary := jsStrOrNull raw.summary, status := jsStrOr raw.status b.status, sourceRefId := sr } := by
    unfold Congreso.upsertBill
    rw [hfind]
  have hbills : (Congreso.upsertBill raw sr db).1.bills = db.bills.map (fun x => if x.externalId = raw.external_id then { b with title := raw.title, summary := jsStrOrNull raw.summary, status := jsStrOr raw.status b.status, sourceRefId := sr } else x) := by
    unfold Congreso.upsertBill
    rw [hfind]
  have hid : (Congreso.upsertBill raw sr db).2.id = b.id := by rw [hub]
  constructor
  · intro x hx hxe
    rw [hnorm] at hx
    have hx2 : x ∈ db.bills.map (fun x => if x.externalId = raw.external_id then { b with title := raw.title, summary := jsStrOrNull raw.summary, status := jsStrOr raw.status b.status, sourceRefId := sr } else x) := by
      rw [← hbills]
      exact hx
    rw [List.mem_map] at hx2
    obtain ⟨y, hy, hxy⟩ := hx2
    by_cases hc : y.externalId = raw.external_id
    · rw [if_pos hc] at hxy
      rw [← hxy]
    · rw [if_neg hc] at hxy
      rw [← hxy] at hxe
      exact absurd hxe hc
  · rw [hnorm]
    show db.movements ++ (raw.movements.getD []).enum.map (mkMovement (Congreso.upsertBill raw sr db).2.id sr) = _
    rw [hid]

/-- Witness for `C4_amended`: the concrete regression of the counterexample
database satisfies the amended description. -/
theorem C4_amended_witness :
    (∀ x ∈ (Congreso.normalizeBills [rawB2] "sr1" cdb4).bills,
      x.externalId = rawB2.external_id → x.status = jsStrOr rawB2.status "APPROVED") ∧
    (Congreso.normalizeBills [rawB2] "sr1" cdb4).movements =
      cdb4.movements ++ (rawB2.movements.getD []).enum.map (mkMovement 5 "sr1") := by
  exact C4_amended cdb4 rawB2 "sr1"
    ⟨5, "B-2", "T", none, "PROJECT", "APPROVED", none, "DIPUTADOS", none, none, "sr0"⟩
    (by decide)

/-- C5 (amended): on a single normalizer run for a bill with no previously
stored movements, the created `BillMovement` rows carry `order_index` equal
to their position in the payload's movements array, so the bill's movement
indices are exactly `0, 1, ..., n-1` — contiguous and dense in insertion
order (repeated runs break this, and nothing is enforced about dates). -/
theorem C5_amended (db : Congreso.Db) (raw : Congreso.RawBill) (sr : String)
    (hmv : db.movements.filter
      (fun m => decide (m.billId = (Congreso.upsertBill raw sr db).2.id)) = []) :
    ((Congreso.normalizeBills [raw] sr db).movements.filter
        (fun m => decide (m.billId = (Congreso.upsertBill raw sr db).2.id))).map
      (fun m => m.orderIndex) = List.range (raw.movements.getD []).length ∧
    denseFrom0 (((Congreso.normalizeBills [raw] sr db).movements.filter
        (fun m => decide (m.billId = (Congreso.upsertBill raw sr db).2.id))).map
      (fun m => m.orderIndex)) := by
  obtain ⟨ba, fj, mj, hnorm⟩ := normalizeBills_single raw sr db
  have hmain : ((Congreso.normalizeBills [raw] sr db).movements.filter
      (fun m => decide (m.billId = (Congreso.upsertBill raw sr db).2.id))).map
        (fun m => m.orderIndex) = List.range (raw.movements.getD []).length := by
    rw [hnorm]
    show ((db.movements ++ (raw.movements.getD []).enum.map
        (mkMovement (Congreso.upsertBill raw sr db).2.id sr)).filter
      (fun m => decide (m.billId = (Congreso.upsertBill raw sr db).2.id))).map
        (fun m => m.orderIndex) = _
    rw [List.filter_append, hmv, List.nil_append]
    have hall : ((raw.movements.getD []).enum.map
        (mkMovement (Congreso.upsertBill raw sr db).2.id sr)).filter
          (fun m => decide (m.billId = (Congreso.upsertBill raw sr db).2.id)) =
        (raw.movements.getD []).enum.map
          (mkMovement (Congreso.upsertBill raw sr db).2.id sr) := by
      rw [List.filter_eq_self]
      intro m hm
      rw [List.mem_map] at hm
      obtain ⟨im, _, rfl⟩ := hm
      simp [mkMovement]
    rw [hall, List.map_map]
    have : ((fun m => m.orderIndex) ∘ mkMovement (Congreso.upsertBill raw sr db).2.id sr) =
        fun im : Nat × Congreso.RawMovement => im.1 := rfl
    rw [this]
    exact List.enum_map_fst _
  refine ⟨hmain, ?_⟩
  rw [denseFrom0, hmain, List.length_range]

/-- Witness for `C5_amended`: the first run on the one-movement payload over
the empty database yields movement indices `[0]` — dense from 0. -/
theorem C5_amended_witness :
    ((Congreso.normalizeBills [rawB1] "sr" cdb0).movements.filter
        (fun m => decide (m.billId = (Congreso.upsertBill rawB1 "sr" cdb0).2.id))).map
      (fun m => m.orderIndex) = List.range (rawB1.movements.getD []).length ∧
    denseFrom0 (((Congreso.normalizeBills [rawB1] "sr" cdb0).movements.filter
        (fun m => decide (m.billId = (Congreso.upsertBill rawB1 "sr" cdb0).2.id))).map
      (fun m => m.orderIndex)) := by
  exact C5_amended cdb0 rawB1 "sr" (by decide)

/-- The vote-result loop never changes the `voteEvents` table. -/
theorem voteResultFold_voteEvents (veId : Nat) (l : List Congreso.RawVoteResult)
    (a : Congreso.Db × List Nat) :
    ((l.foldl (Congreso.voteResultStep veId) a).1).voteEvents = a.1.voteEvents := by
  obtain ⟨vr, aff, h⟩ := voteResultFold_eta veId l a
  rw [h]

/-- C6 (amended): `VoteEvent` tallies are copied from the payload, not
derived from the `VoteResult` rows.  On first insertion all four tallies come
from the payload (defaulting to 0); on a re-upsert only `affirmative` and
`negative` are overwritten while `abstention` and `absent` keep their
previously stored values — so the tally equation holds only when the feed
happens to be internally consistent. -/
theorem C6_amended (db : Congreso.Db) (raw : Congreso.RawVote) (sr : String) :
    (db.voteEvents.find? (fun v => decide (v.externalId = raw.external_id)) = none →
      ∃ ve, (Congreso.normalizeVotes [raw] sr db).voteEvents = db.voteEvents ++ [ve] ∧
        ve.affirmative = raw.affirmative.getD 0 ∧ ve.negative = raw.negative.getD 0 ∧
        ve.abstention = raw.abstention.getD 0 ∧ ve.absent = raw.absent.getD 0) ∧
    (∀ old, db.voteEvents.find? (fun v => decide (v.externalId = raw.external_id)) = some old →
      ∀ v ∈ (Congreso.normalizeVotes [raw] sr db).voteEvents, v.externalId = raw.external_id →
        v.affirmative = raw.affirmative.getD 0 ∧ v.negative = raw.negative.getD 0 ∧
        v.abstention = old.abstention ∧ v.absent = old.absent) := by
  constructor
  · intro hev
    cases hsess : db.sessions.find? (fun s => decide (s.externalId = raw.session_external_id)) with
    | none =>
      refine ⟨⟨db.nextId + 1, raw.external_id, raw.title, jsStrOrNull raw.description,
        raw.date, jsStrOrNull raw.result, raw.affirmative.getD 0, raw.negative.getD 0,
        raw.abstention.getD 0, raw.absent.getD 0, db.nextId, sr⟩, ?_, rfl, rfl, rfl, rfl⟩
      unfold Congreso.normalizeVotes
      rw [List.foldl_cons, List.foldl_nil]
      unfold Congreso.processRawVote
      simp only [hsess, hev, voteResultFold_voteEvents]
    | some sess =>
      refine ⟨⟨db.nextId, raw.external_id, raw.title, jsStrOrNull raw.description,
        raw.date, jsStrOrNull raw.result, raw.affirmative.getD 0, raw.negative.getD 0,
        raw.abstention.getD 0, raw.absent.getD 0, sess.id, sr⟩, ?_, rfl, rfl, rfl, rfl⟩
      unfold Congreso.normalizeVotes
      rw [List.foldl_cons, List.foldl_nil]
      unfold Congreso.processRawVote
      simp only [hsess, hev, voteResultFold_voteEvents]
  · intro old hev v hv hve
    have hmap : (Congreso.normalizeVotes [raw] sr db).voteEvents = db.voteEvents.map (fun x => if x.externalId = raw.external_id then { old with title := raw.title, result := jsStrOrNull raw.result, affirmative := raw.affirmative.getD 0, negative := raw.negative.getD 0 } else x) := by
      cases hsess : db.sessions.find?
          (fun s => decide (s.externalId = raw.session_external_id)) with
      | none =>
        unfold Congreso.normalizeVotes
        rw [List.foldl_cons, List.foldl_nil]
        unfold Congreso.processRawVote
        simp only [hsess, hev, voteResultFold_voteEvents]
      | some sess =>
        unfold Congreso.normalizeVotes
        rw [List.foldl_cons, List.foldl_nil]
        unfold Congreso.processRawVote
        simp only [hsess, hev, voteResultFold_voteEvents]
    rw [hmap] at hv
    rw [List.mem_map] at hv
    obtain ⟨y, hy, hxy⟩ := hv
    by_cases hc : y.externalId = raw.external_id
    · rw [if_pos hc] at hxy
      rw [← hxy]
      exact ⟨rfl, rfl, rfl, rfl⟩
    · rw [if_neg hc] at hxy
      rw [← hxy] at hve
      exact absurd hve hc

/-- Witness for `C6_amended`: the counterexample payload inserted into the
empty database stores exactly the payload tallies (5/0/0/0), and re-sending
it with different abstention/absent tallies changes only affirmative and
negative. -/
theorem C6_amended_witness :
    (∃ ve, (Congreso.normalizeVotes [rawV1] "sr" cdb0).voteEvents =
        cdb0.voteEvents ++ [ve] ∧
      ve.affirmative = rawV1.affirmative.getD 0 ∧ ve.negative = rawV1.negative.getD 0 ∧
      ve.abstention = rawV1.abstention.getD 0 ∧ ve.absent = rawV1.absent.getD 0) := by
  exact (C6_amended cdb0 rawV1 "sr").1 (by decide)

/-! ## Helper lemmas for normalize-twice stability (C3) -/

theorem find?_append_none {α : Type} (l1 l2 : List α) (p : α → Bool)
    (h : l1.find? p = none) : (l1 ++ l2).find? p = l2.find? p := by
  induction l1 with
  | nil => rfl
  | cons hd tl ih =>
    rw [List.find?_eq_none] at h
    have hhd : p hd = false :=
      Bool.eq_false_iff.mpr (h hd (List.mem_cons_self hd tl))
    rw [List.cons_append, List.find?_cons, hhd]
    show (tl ++ l2).find? p = l2.find? p
    apply ih
    rw [List.find?_eq_none]
    intro x hx
    exact h x (List.mem_cons_of_mem hd hx)

theorem jsStrOr_idem (o : Option String) (d : String) :
    jsStrOr o (jsStrOr o d) = jsStrOr o d := by
  cases o with
  | none => rfl
  | some s =>
    by_cases h : s = "" <;> simp [jsStrOr, h]

/-- `upsertBill` touches only `bills` and `nextId`. -/
theorem upsertBill_fields (raw : Congreso.RawBill) (sr : String) (d : Congreso.Db) :
    (Congreso.upsertBill raw sr d).1.legislators = d.legislators ∧
    (Congreso.upsertBill raw sr d).1.billAuthors = d.billAuthors ∧
    (Congreso.upsertBill raw sr d).1.movements = d.movements := by
  unfold Congreso.upsertBill
  cases d.bills.find? (fun b => decide (b.externalId = raw.external_id)) <;>
    exact ⟨rfl, rfl, rfl⟩

/-- The upserted bill carries the payload's external id. -/
theorem upsertBill_externalId (raw : Congreso.RawBill) (sr : String) (d : Congreso.Db) :
    (Congreso.upsertBill raw sr d).2.externalId = raw.external_id := by
  cases hf : d.bills.find? (fun b => decide (b.externalId = raw.external_id)) with
  | none =>
    unfold Congreso.upsertBill
    rw [hf]
  | some old =>
    have h1 := List.find?_some hf
    unfold Congreso.upsertBill
    rw [hf]
    exact of_decide_eq_true h1

/-- After an upsert, every bill row with the payload's external id is the
upserted row. -/
theorem upsertBill_matching (raw : Congreso.RawBill) (sr : String) (d : Congreso.Db) :
    ∀ x ∈ (Congreso.upsertBill raw sr d).1.bills,
      x.externalId = raw.external_id → x = (Congreso.upsertBill raw sr d).2 := by
  intro x hx hxe
  cases hf : d.bills.find? (fun b => decide (b.externalId = raw.external_id)) with
  | some old =>
    unfold Congreso.upsertBill at hx ⊢
    rw [hf] at hx ⊢
    simp only [List.mem_map] at hx
    obtain ⟨y, hy, hxy⟩ := hx
    by_cases hc : y.externalId = raw.external_id
    · rw [if_pos hc] at hxy
      exact hxy.symm
    · rw [if_neg hc] at hxy
      rw [← hxy] at hxe
      exact absurd hxe hc
  | none =>
    unfold Congreso.upsertBill at hx ⊢
    rw [hf] at hx ⊢
    simp only [List.mem_append, List.mem_singleton] at hx
    rcases hx with hx | hx
    · rw [List.find?_eq_none] at hf
      have := hf x hx
      rw [decide_eq_true_iff] at this
      exact absurd hxe this
    · exact hx

/-- Replacing every `e`-keyed row by `v` (itself `e`-keyed) makes `find?` by
key `e` return `v`, provided some `e`-keyed row was found before. -/
theorem find?_map_replace (l : List Congreso.BillRow) (e : String) (v old : Congreso.BillRow)
    (hf : l.find? (fun b => decide (b.externalId = e)) = some old)
    (hv : v.externalId = e) :
    (l.map (fun x => if x.externalId = e then v else x)).find?
      (fun b => decide (b.externalId = e)) = some v := by
  induction l with
  | nil => exact absurd hf (by simp)
  | cons hd tl ih =>
    rw [List.map_cons]
    by_cases hc : hd.externalId = e
    · rw [if_pos hc, List.find?_cons, show decide (v.externalId = e) = true from decide_eq_true hv]
    · rw [if_neg hc, List.find?_cons, show decide (hd.externalId = e) = false from decide_eq_false hc]
      show (tl.map (fun x => if x.externalId = e then v else x)).find?
        (fun b => decide (b.externalId = e)) = some v
      rw [List.find?_cons, show decide (hd.externalId = e) = false from decide_eq_false hc] at hf
      exact ih hf

/-- Looking the payload's external id up right after its upsert yields the
upserted row. -/
theorem upsertBill_find (raw : Congreso.RawBill) (sr : String) (d : Congreso.Db) :
    (Congreso.upsertBill raw sr d).1.bills.find?
      (fun b => decide (b.externalId = raw.external_id)) =
      some (Congreso.upsertBill raw sr d).2 := by
  cases hf : d.bills.find? (fun b => decide (b.externalId = raw.external_id)) with
  | some old =>
    have h1 := List.find?_some hf
    have hext : old.externalId = raw.external_id := of_decide_eq_true h1
    unfold Congreso.upsertBill
    rw [hf]
    exact find?_map_replace d.bills raw.external_id _ old hf hext
  | none =>
    unfold Congreso.upsertBill
    rw [hf]
    show (d.bills ++ [_]).find? _ = _
    rw [find?_append_none d.bills _ _ hf, List.find?_cons]
    rw [show decide ((⟨d.nextId, raw.external_id, raw.title, jsStrOrNull raw.summary,
      jsStrOr raw.type "PROJECT", jsStrOr raw.status "PRESENTED", raw.presented_date,
      "DIPUTADOS", jsStrOrNull raw.source_url, jsStrOrNull raw.period, sr⟩ :
        Congreso.BillRow).externalId = raw.external_id) = true from decide_eq_true rfl]

/-- Re-applying the upsert's update clause to the upserted row is the
identity. -/
theorem upsertBill_reupdate (raw : Congreso.RawBill) (sr : String) (d : Congreso.Db) :
    { (Congreso.upsertBill raw sr d).2 with title := raw.title, summary := jsStrOrNull raw.summary, status := jsStrOr raw.status (Congreso.upsertBill raw sr d).2.status, sourceRefId := sr } =
      (Congreso.upsertBill raw sr d).2 := by
  cases hf : d.bills.find? (fun b => decide (b.externalId = raw.external_id)) with
  | some old =>
    unfold Congreso.upsertBill
    rw [hf]
    dsimp only
    rw [jsStrOr_idem]
  | none =>
    unfold Congreso.upsertBill
    rw [hf]
    dsimp only
    rw [jsStrOr_idem]

/-- If every `e`-keyed row already equals `v`, the replacement map is the
identity. -/
theorem mapReplace_id (l : List Congreso.BillRow) (e : String) (v : Congreso.BillRow)
    (h : ∀ x ∈ l, x.externalId = e → x = v) :
    l.map (fun x => if x.externalId = e then v else x) = l := by
  induction l with
  | nil => rfl
  | cons hd tl ih =>
    rw [List.map_cons]
    have htl : tl.map (fun x => if x.externalId = e then v else x) = tl :=
      ih (fun x hx hxe => h x (List.mem_cons_of_mem hd hx) hxe)
    by_cases hc : hd.externalId = e
    · rw [if_pos hc, htl, ← h hd (List.mem_cons_self hd tl) hc]
    · rw [if_neg hc, htl]

/-- A second upsert of the same raw bill is a complete no-op on the database
and returns the same row. -/
theorem upsertBill_noop (raw : Congreso.RawBill) (sr : String) (d : Congreso.Db)
    (w : Congreso.BillRow)
    (hfind : d.bills.find? (fun b => decide (b.externalId = raw.external_id)) = some w)
    (hmatch : ∀ x ∈ d.bills, x.externalId = raw.external_id → x = w)
    (hre : { w with title := raw.title, summary := jsStrOrNull raw.summary, status := jsStrOr raw.status w.status, sourceRefId := sr } = w) :
    (Congreso.upsertBill raw sr d).1 = d ∧ (Congreso.upsertBill raw sr d).2 = w := by
  unfold Congreso.upsertBill
  rw [hfind]
  dsimp only
  rw [hre, mapReplace_id d.bills raw.external_id w hmatch]
  exact ⟨rfl, rfl⟩

/-- The author-table state the upsert loop establishes for one key: a row
with key `(bid, legid)` exists, and every such row carries role `ρ`. -/
def AuthorState (bid legid : Nat) (ρ : String) (rows : List Congreso.BillAuthorRow) : Prop :=
  (∃ r ∈ rows, r.billId = bid ∧ r.legislatorId = legid) ∧
  (∀ r ∈ rows, r.billId = bid → r.legislatorId = legid → r.role = ρ)

/-- After `upsertBillAuthor bid legid ρ`, the key `(bid, legid)` is present
with role `ρ`. -/
theorem upsertBillAuthor_post (bid legid : Nat) (ρ : String) (d : Congreso.Db) :
    AuthorState bid legid ρ (Congreso.upsertBillAuthor bid legid ρ d).billAuthors := by
  unfold Congreso.upsertBillAuthor
  by_cases h : d.billAuthors.any
      (fun a => decide (a.billId = bid ∧ a.legislatorId = legid)) = true
  · rw [if_pos h]
    rw [List.any_eq_true] at h
    obtain ⟨r, hr, hp⟩ := h
    rw [decide_eq_true_iff] at hp
    constructor
    · refine ⟨if r.billId = bid ∧ r.legislatorId = legid then { r with role := ρ } else r,
        List.mem_map_of_mem _ hr, ?_⟩
      rw [if_pos hp]
      exact ⟨hp.1, hp.2⟩
    · intro x hx hb hl
      rw [List.mem_map] at hx
      obtain ⟨y, hy, hxy⟩ := hx
      by_cases hc : y.billId = bid ∧ y.legislatorId = legid
      · rw [if_pos hc] at hxy
        rw [← hxy]
      · rw [if_neg hc] at hxy
        rw [← hxy] at hb hl
        exact absurd ⟨hb, hl⟩ hc
  · rw [if_neg h]
    constructor
    · exact ⟨⟨bid, legid, ρ⟩, by simp, rfl, rfl⟩
    · intro x hx hb hl
      rcases List.mem_append.mp hx with hx | hx
      · exfalso
        apply h
        rw [List.any_eq_true]
        exact ⟨x, hx, decide_eq_true ⟨hb, hl⟩⟩
      · rw [List.mem_singleton] at hx
        rw [hx]

/-- An upsert for a different legislator key preserves `AuthorState`. -/
theorem upsertBillAuthor_pres (bid legid legid' : Nat) (ρ ρ' : String) (d : Congreso.Db)
    (hne : legid' ≠ legid) (hP : AuthorState bid legid ρ d.billAuthors) :
    AuthorState bid legid ρ (Congreso.upsertBillAuthor bid legid' ρ' d).billAuthors := by
  obtain ⟨⟨r, hr, hbr, hlr⟩, hall⟩ := hP
  unfold Congreso.upsertBillAuthor
  by_cases h : d.billAuthors.any
      (fun a => decide (a.billId = bid ∧ a.legislatorId = legid')) = true
  · rw [if_pos h]
    constructor
    · refine ⟨if r.billId = bid ∧ r.legislatorId = legid' then { r with role := ρ' } else r,
        List.mem_map_of_mem _ hr, ?_⟩
      rw [if_neg (fun hc => hne (hc.2.symm.trans hlr))]
      exact ⟨hbr, hlr⟩
    · intro x hx hb hl
      rw [List.mem_map] at hx
      obtain ⟨y, hy, hxy⟩ := hx
      by_cases hc : y.billId = bid ∧ y.legislatorId = legid'
      · rw [if_pos hc] at hxy
        rw [← hxy] at hl
        exact absurd (hc.2.symm.trans hl) hne
      · rw [if_neg hc] at hxy
        rw [← hxy] at hb hl ⊢
        exact hall y hy hb hl
  · rw [if_neg h]
    constructor
    · exact ⟨r, List.mem_append_left _ hr, hbr, hlr⟩
    · intro x hx hb hl
      rcases List.mem_append.mp hx with hx | hx
      · exact hall x hx hb hl
      · rw [List.mem_singleton] at hx
        rw [hx] at hl
        exact absurd hl hne

/-- An author step for an author resolving to a different legislator (or to
none) preserves `AuthorState`. -/
theorem authorStep_pres (bid legid : Nat) (ρ : String) (a : Congreso.Db × List Nat)
    (author' : Congreso.RawAuthor)
    (hres : ∀ leg', a.1.legislators.find?
      (fun l => decide (l.externalId = author'.external_id)) = some leg' → leg'.id ≠ legid)
    (hP : AuthorState bid legid ρ a.1.billAuthors) :
    AuthorState bid legid ρ ((Congreso.authorStep bid a author').1).billAuthors := by
  cases hf : a.1.legislators.find?
      (fun l => decide (l.externalId = author'.external_id)) with
  | none =>
    unfold Congreso.authorStep
    rw [hf]
    exact hP
  | some leg' =>
    unfold Congreso.authorStep
    rw [hf]
    exact upsertBillAuthor_pres bid legid leg'.id ρ _ a.1 (hres leg' hf) hP

/-- The author steps never change the legislators table. -/
theorem authorStep_legislators (bid : Nat) (a : Congreso.Db × List Nat)
    (author : Congreso.RawAuthor) :
    ((Congreso.authorStep bid a author).1).legislators = a.1.legislators := by
  obtain ⟨ba, aff, h⟩ := authorStep_eta bid a author
  rw [h]

/-- A whole author loop whose authors all resolve away from `legid` preserves
`AuthorState`. -/
theorem authorFold_pres (bid legid : Nat) (ρ : String) (l : List Congreso.RawAuthor)
    (a : Congreso.Db × List Nat)
    (hres : ∀ author' ∈ l, ∀ leg', a.1.legislators.find?
      (fun x => decide (x.externalId = author'.external_id)) = some leg' → leg'.id ≠ legid)
    (hP : AuthorState bid legid ρ a.1.billAuthors) :
    AuthorState bid legid ρ (((l.foldl (Congreso.authorStep bid) a)).1).billAuthors := by
  induction l generalizing a with
  | nil => exact hP
  | cons hd tl ih =>
    rw [List.foldl_cons]
    apply ih
    · intro author' ha' leg' hf
      rw [authorStep_legislators] at hf
      exact hres author' (List.mem_cons_of_mem hd ha') leg' hf
    · exact authorStep_pres bid legid ρ a hd
        (hres hd (List.mem_cons_self hd tl)) hP

/-- After the author loop, every author of the payload that resolves to a
legislator has its `(bid, legislator)` key present with its resolved role
(payload authors assumed listed once; legislator ids assumed unique). -/
theorem authorFold_post (bid : Nat) (l : List Congreso.RawAuthor)
    (a : Congreso.Db × List Nat)
    (hA : (l.map (fun x => x.external_id)).Nodup)
    (hL : (a.1.legislators.map (fun x => x.id)).Nodup) :
    ∀ author ∈ l, ∀ leg, a.1.legislators.find?
        (fun x => decide (x.externalId = author.external_id)) = some leg →
      AuthorState bid leg.id (jsStrOr author.role "AUTHOR")
        (((l.foldl (Congreso.authorStep bid) a)).1).billAuthors := by
  induction l generalizing a with
  | nil =>
    intro author h
    exact absurd h (by simp)
  | cons hd tl ih =>
    intro author hmem leg hf
    rw [List.foldl_cons]
    rcases List.mem_cons.mp hmem with rfl | htl
    · have hstep : AuthorState bid leg.id (jsStrOr author.role "AUTHOR")
          ((Congreso.authorStep bid a author).1).billAuthors := by
        unfold Congreso.authorStep
        rw [hf]
        exact upsertBillAuthor_post bid leg.id _ a.1
      apply authorFold_pres bid leg.id _ tl _ ?_ hstep
      intro author' ha' leg' hf'
      rw [authorStep_legislators] at hf'
      have hne : author'.external_id ≠ author.external_id := by
        intro he
        apply (List.nodup_cons.mp hA).1
        rw [List.mem_map]
        exact ⟨author', ha', he⟩
      have h1 := List.find?_some hf
      have h2 := List.find?_some hf'
      have hleg1 : leg.externalId = author.external_id := of_decide_eq_true h1
      have hleg2 : leg'.externalId = author'.external_id := of_decide_eq_true h2
      have hmem1 : leg ∈ a.1.legislators := List.mem_of_find?_eq_some hf
      have hmem2 : leg' ∈ a.1.legislators := List.mem_of_find?_eq_some hf'
      intro hid
      apply hne
      have heq : leg' = leg := List.inj_on_of_nodup_map hL hmem2 hmem1 hid
      rw [← hleg2, heq, hleg1]
    · have hleg : ((Congreso.authorStep bid a hd).1).legislators = a.1.legislators :=
        authorStep_legislators bid a hd
      refine ih (Congreso.authorStep bid a hd) (List.nodup_cons.mp hA).2 ?_ author htl leg ?_
      · rw [hleg]
        exact hL
      · rw [hleg]
        exact hf

/-- An upsert whose key is already present with the same role is the
identity on the database. -/
theorem mapRole_id (rows : List Congreso.BillAuthorRow) (bid legid : Nat) (ρ : String)
    (hall : ∀ r ∈ rows, r.billId = bid → r.legislatorId = legid → r.role = ρ) :
    rows.map (fun a =>
      if a.billId = bid ∧ a.legislatorId = legid then { a with role := ρ } else a) = rows := by
  induction rows with
  | nil => rfl
  | cons hd tl ih =>
    rw [List.map_cons, ih (fun r hr => hall r (List.mem_cons_of_mem hd hr))]
    by_cases hc : hd.billId = bid ∧ hd.legislatorId = legid
    · rw [if_pos hc, ← hall hd (List.mem_cons_self hd tl) hc.1 hc.2]
    · rw [if_neg hc]

/-- An upsert whose key is already present with the same role is the
identity on the database. -/
theorem upsertBillAuthor_noop (bid legid : Nat) (ρ : String) (d : Congreso.Db)
    (hP : AuthorState bid legid ρ d.billAuthors) :
    Congreso.upsertBillAuthor bid legid ρ d = d := by
  obtain ⟨⟨r, hr, hbr, hlr⟩, hall⟩ := hP
  unfold Congreso.upsertBillAuthor
  rw [if_pos (by rw [List.any_eq_true]; exact ⟨r, hr, decide_eq_true ⟨hbr, hlr⟩⟩)]
  rw [mapRole_id d.billAuthors bid legid ρ hall]

/-- Re-running a whole author loop whose keys are already present with their
final roles is the identity on the database. -/
theorem authorFold_noop (bid : Nat) (l : List Congreso.RawAuthor)
    (a : Congreso.Db × List Nat)
    (H : ∀ author ∈ l, ∀ leg, a.1.legislators.find?
        (fun x => decide (x.externalId = author.external_id)) = some leg →
      AuthorState bid leg.id (jsStrOr author.role "AUTHOR") a.1.billAuthors) :
    ((l.foldl (Congreso.authorStep bid) a)).1 = a.1 := by
  induction l generalizing a with
  | nil => rfl
  | cons hd tl ih =>
    rw [List.foldl_cons]
    have hstep : (Congreso.authorStep bid a hd).1 = a.1 := by
      cases hf : a.1.legislators.find?
          (fun x => decide (x.externalId = hd.external_id)) with
      | none =>
        unfold Congreso.authorStep
        rw [hf]
      | some leg =>
        unfold Congreso.authorStep
        rw [hf]
        exact upsertBillAuthor_noop bid leg.id _ a.1
          (H hd (List.mem_cons_self hd tl) leg hf)
    rw [ih (Congreso.authorStep bid a hd) ?_, hstep]
    intro author ha leg hf
    rw [hstep] at hf ⊢
    exact H author (List.mem_cons_of_mem hd ha) leg hf

/-- The `billAuthors` table after a one-bill normalization is exactly the
author loop's output over the upserted database. -/
theorem normalizeBills_single_billAuthors (raw : Congreso.RawBill) (sr : String)
    (d : Congreso.Db) :
    (Congreso.normalizeBills [raw] sr d).billAuthors =
      ((((raw.authors.getD []).foldl
        (Congreso.authorStep (Congreso.upsertBill raw sr d).2.id)
        ((Congreso.upsertBill raw sr d).1, []))).1).billAuthors := by
  unfold Congreso.normalizeBills
  rw [List.foldl_cons, List.foldl_nil]
  unfold Congreso.processRawBill
  cases hex : d.bills.find? (fun b => decide (b.externalId = raw.external_id)) with
  | none => simp only [hex]
  | some old =>
    by_cases hlen : (raw.movements.getD []).length > 0
    · simp only [hex, if_pos hlen]
    · simp only [hex, if_neg hlen]

/-- C3 (amended): for every one-bill payload (whose author list names each
author once) over a database with unique legislator ids, running
`normalizeBills` twice leaves the Bill and BillAuthor tables unchanged, while
the BillMovement table gains the payload's movements a second time. -/
theorem C3_amended (db : Congreso.Db) (raw : Congreso.RawBill) (sr : String)
    (hA : ((raw.authors.getD []).map (fun x => x.external_id)).Nodup)
    (hL : (db.legislators.map (fun x => x.id)).Nodup) :
    (Congreso.normalizeBills [raw] sr (Congreso.normalizeBills [raw] sr db)).bills =
      (Congreso.normalizeBills [raw] sr db).bills ∧
    (Congreso.normalizeBills [raw] sr (Congreso.normalizeBills [raw] sr db)).billAuthors =
      (Congreso.normalizeBills [raw] sr db).billAuthors ∧
    (Congreso.normalizeBills [raw] sr (Congreso.normalizeBills [raw] sr db)).movements.length =
      (Congreso.normalizeBills [raw] sr db).movements.length +
        (raw.movements.getD []).length := by
  obtain ⟨ba1, fj1, mj1, h1⟩ := normalizeBills_single raw sr db
  obtain ⟨ba2, fj2, mj2, h2⟩ :=
    normalizeBills_single raw sr (Congreso.normalizeBills [raw] sr db)
  have hb1 : (Congreso.normalizeBills [raw] sr db).bills =
      (Congreso.upsertBill raw sr db).1.bills := by
    rw [h1]
  have hleg1 : (Congreso.normalizeBills [raw] sr db).legislators = db.legislators := by
    rw [h1]
    exact (upsertBill_fields raw sr db).1
  have hba1 := normalizeBills_single_billAuthors raw sr db
  have hfind1 : (Congreso.normalizeBills [raw] sr db).bills.find?
      (fun b => decide (b.externalId = raw.external_id)) =
      some (Congreso.upsertBill raw sr db).2 := by
    rw [hb1]
    exact upsertBill_find raw sr db
  have hmatch1 : ∀ x ∈ (Congreso.normalizeBills [raw] sr db).bills,
      x.externalId = raw.external_id → x = (Congreso.upsertBill raw sr db).2 := by
    rw [hb1]
    exact upsertBill_matching raw sr db
  have hnoop := upsertBill_noop raw sr (Congreso.normalizeBills [raw] sr db)
    (Congreso.upsertBill raw sr db).2 hfind1 hmatch1 (upsertBill_reupdate raw sr db)
  refine ⟨?_, ?_, ?_⟩
  · have hb2 : (Congreso.normalizeBills [raw] sr (Congreso.normalizeBills [raw] sr db)).bills =
        (Congreso.upsertBill raw sr (Congreso.normalizeBills [raw] sr db)).1.bills := by
      rw [h2]
    rw [hb2, hnoop.1]
  · have hba2 := normalizeBills_single_billAuthors raw sr (Congreso.normalizeBills [raw] sr db)
    have hid2 : (Congreso.upsertBill raw sr (Congreso.normalizeBills [raw] sr db)).2.id =
        (Congreso.upsertBill raw sr db).2.id := by
      rw [hnoop.2]
    rw [hba2, hnoop.1, hid2]
    have hH : ∀ author ∈ raw.authors.getD [], ∀ leg,
        ((Congreso.normalizeBills [raw] sr db, ([] : List Nat))).1.legislators.find?
          (fun x => decide (x.externalId = author.external_id)) = some leg →
        AuthorState (Congreso.upsertBill raw sr db).2.id leg.id
          (jsStrOr author.role "AUTHOR")
          ((Congreso.normalizeBills [raw] sr db, ([] : List Nat))).1.billAuthors := by
      intro author ha leg hf
      have hf2 : (Congreso.upsertBill raw sr db).1.legislators.find?
          (fun x => decide (x.externalId = author.external_id)) = some leg := by
        rw [(upsertBill_fields raw sr db).1]
        rw [hleg1] at hf
        exact hf
      have hL2 : ((Congreso.upsertBill raw sr db).1.legislators.map (fun x => x.id)).Nodup := by
        rw [(upsertBill_fields raw sr db).1]
        exact hL
      have hpost := authorFold_post (Congreso.upsertBill raw sr db).2.id
        (raw.authors.getD []) ((Congreso.upsertBill raw sr db).1, []) hA hL2 author ha leg hf2
      show AuthorState _ _ _ (Congreso.normalizeBills [raw] sr db).billAuthors
      rw [hba1]
      exact hpost
    have hfoldnoop := authorFold_noop (Congreso.upsertBill raw sr db).2.id
      (raw.authors.getD []) ((Congreso.normalizeBills [raw] sr db), []) hH
    rw [hfoldnoop]
  · have hm2 : (Congreso.normalizeBills [raw] sr (Congreso.normalizeBills [raw] sr db)).movements =
        (Congreso.normalizeBills [raw] sr db).movements ++
          (raw.movements.getD []).enum.map
            (mkMovement (Congreso.upsertBill raw sr
              (Congreso.normalizeBills [raw] sr db)).2.id sr) := by
      rw [h2]
    rw [hm2, List.length_append, List.length_map, List.enum_length]

/-- Witness for `C3_amended`: the one-movement payload of the counterexample
over the empty database. -/
theorem C3_amended_witness :
    (Congreso.normalizeBills [rawB1] "sr" (Congreso.normalizeBills [rawB1] "sr" cdb0)).bills =
      (Congreso.normalizeBills [rawB1] "sr" cdb0).bills ∧
    (Congreso.normalizeBills [rawB1] "sr"
      (Congreso.normalizeBills [rawB1] "sr" cdb0)).billAuthors =
      (Congreso.normalizeBills [rawB1] "sr" cdb0).billAuthors ∧
    (Congreso.normalizeBills [rawB1] "sr"
      (Congreso.normalizeBills [rawB1] "sr" cdb0)).movements.length =
      (Congreso.normalizeBills [rawB1] "sr" cdb0).movements.length +
        (rawB1.movements.getD []).length := by
  exact C3_amended cdb0 rawB1 "sr" (by decide) (by decide)

end MicheOS
